import Mathlib

/-!
# FSK receiver baseband processor (proc_fsk_rx.cpp / proc_fsk_rx.hpp)

A shallow embedding of `FSKRxProcessor`: the sync correlator (`getBitAtIndex`,
`checkSync`), the three parse-state handlers, `execute` and `configure`,
followed by the properties established about them.

Conventions of the embedding.
* C++ `int` values that are only ever small are `Int`; unsigned fields are `Nat`
  with the reduction modulo `2^w` written out where the code narrows a value.
* An array reached through a pointer is a function from indices to values
  (`p k` is the object at `p[k]`), so that a read or write past the declared
  length is still described; the indices of `dst_buffer.p` that are read are
  recorded in the ghost field `sample_reads`.
* A loop `for (x = 0; x < N; x += step)` is a structural recursion on the number
  of iterations still to run, carrying `x`.
-/

namespace FSKRx

/-! ## Constants (proc_fsk_rx.hpp) -/

def SAMPLE_PER_SYMBOL : Nat := 1
def LEN_DEMOD_BUF_ACCESS : Nat := 32
def SYNC_BYTE_FSK : Nat := 0x84B3E374
def SYNC_BYTE_BLE : Nat := 0x8E89BED6
def NUM_ACCESS_ADDR_BYTE : Nat := 4
def RB_SIZE : Nat := 512

/-- Length of `dst` (`std::array<complex16_t, 512>`), the `count` of `dst_buffer`. -/
def dst_buffer_count : Nat := 512

inductive Parse_State where
  | Parse_State_Begin
  | Parse_State_PDU_Header
  | Parse_State_PDU_Payload
  deriving DecidableEq, Repr

/-! ## Machine arithmetic -/

/-- Value of a 32-bit two's-complement `int` holding the mathematical result `x`. -/
def wrapInt32 (x : Int) : Int := (x + 2147483648) % 4294967296 - 2147483648

/-- Value of a 16-bit two's-complement half-word with unsigned reading `u`. -/
def toInt16 (u : Nat) : Int :=
  if u % 65536 < 32768 then ((u % 65536 : Nat) : Int) else ((u % 65536 : Nat) : Int) - 65536

/-- The expression `x & m` for an `int` x and a mask `m = 2^k - 1`: the low `k`
bits of the two's-complement representation, that is `x` modulo `m + 1`. -/
def maskLow (x : Int) (m : Nat) : Nat := (x % ((m : Int) + 1)).toNat

/-- Store into a cell of an array given as a function. -/
def store {α : Type} (a : Nat → α) (k : Nat) (v : α) : Nat → α :=
  fun n => if n = k then v else a n

/-! ## Data -/

/-- A `complex16_t` sample: `real()` and `imag()`, each a 16-bit signed value. -/
structure Complex16 where
  re : Int
  im : Int
  deriving DecidableEq, Repr

/-- A `complex8_t` sample of the raw buffer: two signed bytes. -/
structure Complex8 where
  re : Int
  im : Int
  deriving DecidableEq, Repr

/-- The raw input buffer `buffer_c8_t`: pointer and count. -/
structure buffer_c8_t where
  p : Nat → Complex8
  count : Nat

/-- The record handed to the application (`FskPacketData`, declared in
message.hpp); the fields are the ones this processor assigns. -/
structure FskPacketData where
  max_dB : Int
  type : Nat
  size : Nat
  dataLen : Nat
  deviceId : Nat → Nat
  data : Nat → Nat

/-- The fields of `FSKRxProcessor` that its member functions read or write.
`D` is the state of the decimator `decim_0` (dsp_decimate.hpp).
`dst` is the storage behind `dst_buffer.p`; `demod_buf_access` is the function
static array of `handleBeginState`; `application_queue` is the sequence of
packets pushed to `shared_memory.application_queue`, oldest first;
`sample_reads` is ghost state: the indices of `dst_buffer.p` read so far, most
recent first. -/
structure FSKRxProcessor (D : Type) where
  dst : Int → Complex16
  rb_buf : Nat → Nat
  decim_0 : D
  channel_number : Nat
  configured : Bool
  fskPacketData : FskPacketData
  parseState : Parse_State
  packet_index : Nat
  phase_idx : Int
  sample_idx : Int
  symbols_eaten : Int
  bit_decision : Nat
  payload_len : Nat
  pdu_type : Nat
  max_dB : Int
  syncByte : Nat
  demod_buf_access : Nat → Nat → Nat
  application_queue : List FskPacketData
  sample_reads : List Int

/-- What `execute` and `configure` use from outside proc_fsk_rx.cpp:
the decimator `FIRC8xR16x24FS4Decim4` (its `configure` with the fixed tap table
and its `execute`, which fills the storage of `dst_buffer`), and the conversion
`mag2_to_dbv_norm(max_squared * (1 / (32768 * 32768)))` of the peak squared
magnitude to an integer level. -/
structure Externals (D : Type) where
  decim_configure : D → D
  decim_execute : D → buffer_c8_t → (Int → Complex16) → D × (Int → Complex16)
  mag2_to_dbv_norm : Nat → Int

/-! ## Sync correlator -/

/-- Source: `FSKRxProcessor::getBitAtIndex`. -/
def getBitAtIndex (value : Nat) (index : Int) : Nat :=
  if 0 ≤ index ∧ index < 32 then (value >>> index.toNat) &&& 0x01 else 0

/-- The loop of `checkSync`; `n` iterations remain, `p` is the loop counter.
Returns `unequal_flag` and the member `syncByte`. -/
def checkSyncLoop (findSync : Nat) (demod_sync_byte : Nat → Nat) :
    Nat → Nat → Nat → Nat → Bool × Nat
  | 0, _, _, syncByte => (false, syncByte)
  | n + 1, p, startIndex, syncByte =>
    if demod_sync_byte startIndex ≠ getBitAtIndex findSync (p : Int) then
      (true, syncByte)
    else
      checkSyncLoop findSync demod_sync_byte n (p + 1)
        (maskLow ((startIndex : Int) + 1) (LEN_DEMOD_BUF_ACCESS - 1))
        ((syncByte &&& (0xFFFFFFFF ^^^ ((1 <<< p) % 4294967296)))
          ||| ((demod_sync_byte startIndex <<< p) % 4294967296))

/-- Source: `FSKRxProcessor::checkSync`, with the member `syncByte` passed in
and returned next to the result. -/
def checkSync (findSync : Nat) (demod_sync_byte : Nat → Nat) (startIndex : Nat)
    (syncByte : Nat) : Bool × Nat :=
  checkSyncLoop findSync demod_sync_byte LEN_DEMOD_BUF_ACCESS 0 startIndex syncByte

/-! ## Differential bit decision, as written at each of its three sites -/

/-- Source: `handleBeginState`, lines 72-79: `(I0 * Q1 - I1 * Q0) > 0 ? 1 : 0`
on `int` operands. -/
def beginBitDecision (I0 Q0 I1 Q1 : Int) : Nat :=
  if wrapInt32 (wrapInt32 (I0 * Q1) - wrapInt32 (I1 * Q0)) > 0 then 1 else 0

/-- Source: `handlePDUHeaderState`, lines 162-167. -/
def headerBitDecision (I0 Q0 I1 Q1 : Int) : Nat :=
  if wrapInt32 (wrapInt32 (I0 * Q1) - wrapInt32 (I1 * Q0)) > 0 then 1 else 0

/-- Source: `handlePDUPayloadState`, lines 192-197. -/
def payloadBitDecision (I0 Q0 I1 Q1 : Int) : Nat :=
  if wrapInt32 (wrapInt32 (I0 * Q1) - wrapInt32 (I1 * Q0)) > 0 then 1 else 0

/-! ## Begin state -/

/-- The processor together with the locals of `handleBeginState` that the search
loop carries. -/
structure BeginSearch (D : Type) where
  self : FSKRxProcessor D
  demod_buf_offset : Nat
  hit_idx : Int
  unequal_flag : Bool

/-- Body of the inner loop of `handleBeginState` (lines 71-87) for one `j`. -/
def beginPhase {D : Type} (sp i j : Nat) (b : BeginSearch D) : BeginSearch D :=
  let s := b.self
  let I0 := (s.dst ((i : Int) + j)).re
  let Q0 := (s.dst ((i : Int) + j)).im
  let I1 := (s.dst ((i : Int) + j + 1)).re
  let Q1 := (s.dst ((i : Int) + j + 1)).im
  let win := store s.demod_buf_access j
    (store (s.demod_buf_access j) b.demod_buf_offset (beginBitDecision I0 Q0 I1 Q1))
  let r := checkSync SYNC_BYTE_BLE (win j) sp 0
  let s1 : FSKRxProcessor D :=
    { s with
      phase_idx := (j : Int)
      demod_buf_access := win
      syncByte := r.2
      sample_reads := ((i : Int) + j + 1) :: ((i : Int) + j) :: s.sample_reads }
  if r.1 = false then
    { self := s1
      demod_buf_offset := b.demod_buf_offset
      hit_idx := (i : Int) + j - ((LEN_DEMOD_BUF_ACCESS : Int) - 1) * SAMPLE_PER_SYMBOL
      unequal_flag := false }
  else
    { b with self := s1, unequal_flag := true }

/-- The inner loop `for (j = 0; j < SAMPLE_PER_SYMBOL; j++)` with its `break`;
`m` iterations remain. -/
def beginPhases {D : Type} (sp i : Nat) : Nat → Nat → BeginSearch D → BeginSearch D
  | 0, _, b => b
  | m + 1, j, b =>
    let b1 := beginPhase sp i j b
    if b1.unequal_flag = false then b1 else beginPhases sp i m (j + 1) b1

/-- The outer loop of `handleBeginState` (lines 67-95); `n` iterations remain
and `i` is the loop counter. -/
def beginSymbols {D : Type} : Nat → Nat → BeginSearch D → BeginSearch D
  | 0, _, b => b
  | n + 1, i, b =>
    let sp := maskLow ((b.demod_buf_offset : Int) - LEN_DEMOD_BUF_ACCESS + 1)
      (LEN_DEMOD_BUF_ACCESS - 1)
    let b1 := beginPhases sp i SAMPLE_PER_SYMBOL 0 b
    if b1.unequal_flag = false then b1
    else
      beginSymbols n (i + SAMPLE_PER_SYMBOL)
        { b1 with
          demod_buf_offset :=
            maskLow ((b1.demod_buf_offset : Int) + 1) (LEN_DEMOD_BUF_ACCESS - 1) }

/-- Lines 56-65 of `handleBeginState`: the locals are initialised and the
window `demod_buf_access` is cleared by `memset`. -/
def beginInit {D : Type} (s : FSKRxProcessor D) : BeginSearch D :=
  { self := { s with demod_buf_access := fun _ _ => 0 }
    demod_buf_offset := 0
    hit_idx := -1
    unequal_flag := false }

/-- The search part of `handleBeginState` (lines 56-95): initialisation, then
the loop over `num_symbol_left = dst_buffer.count / SAMPLE_PER_SYMBOL` symbols. -/
def beginSearch {D : Type} (s : FSKRxProcessor D) : BeginSearch D :=
  beginSymbols (dst_buffer_count / SAMPLE_PER_SYMBOL) 0 (beginInit s)

/-- The loop `for (i = 0; i < 20; i++) data[i] = 0x01` (lines 123-125). -/
def fillData (data : Nat → Nat) : Nat → Nat → Nat → Nat
  | 0, _ => data
  | n + 1, i => fillData (store data i 0x01) n (i + 1)

/-- The hit path of `handleBeginState` (lines 102-138), entered with the value
of `hit_idx` left by the search. The assignment to the local `num_symbol_left`
(line 106) has no effect and is left out. The message pushed carries the
address of `fskPacketData`; the queue records the record as it is when pushed. -/
def beginHit {D : Type} (s : FSKRxProcessor D) (hit_idx : Int) : FSKRxProcessor D :=
  let symbols_eaten := s.symbols_eaten + hit_idx
  let symbols_eaten :=
    symbols_eaten + ((8 * NUM_ACCESS_ADDR_BYTE * SAMPLE_PER_SYMBOL : Nat) : Int)
  let deviceId := store s.fskPacketData.deviceId 0 ((s.syncByte >>> 24) &&& 0xFF)
  let deviceId := store deviceId 1 ((s.syncByte >>> 16) &&& 0xFF)
  let deviceId := store deviceId 2 ((s.syncByte >>> 8) &&& 0xFF)
  let deviceId := store deviceId 3 (s.syncByte &&& 0xFF)
  let deviceId := store deviceId 4 0x01
  let deviceId := store deviceId 5 0x02
  let pkt : FskPacketData :=
    { max_dB := s.max_dB
      type := 0
      size := 31
      dataLen := 20
      deviceId := deviceId
      data := fillData s.fskPacketData.data 20 0 }
  { s with
    symbols_eaten := symbols_eaten
    fskPacketData := pkt
    application_queue :=
      if s.syncByte > 0xFF then s.application_queue ++ [pkt] else s.application_queue
    parseState := Parse_State.Parse_State_Begin }

/-- Source: `FSKRxProcessor::handleBeginState`. -/
def handleBeginState {D : Type} (s : FSKRxProcessor D) : FSKRxProcessor D :=
  let b := beginSearch s
  if b.hit_idx = -1 then b.self else beginHit b.self b.hit_idx

/-! ## Header state -/

/-- The bit loop `for (j = 0; j < 8; j++)` of `handlePDUHeaderState`
(lines 161-171); `n` iterations remain. -/
def headerBits {D : Type} : Nat → Nat → FSKRxProcessor D → FSKRxProcessor D
  | 0, _, s => s
  | n + 1, j, s =>
    let I0 := (s.dst s.sample_idx).re
    let Q0 := (s.dst s.sample_idx).im
    let I1 := (s.dst (s.sample_idx + 1)).re
    let Q1 := (s.dst (s.sample_idx + 1)).im
    let bit_decision := headerBitDecision I0 Q0 I1 Q1
    headerBits n (j + 1)
      { s with
        bit_decision := bit_decision
        rb_buf := store s.rb_buf s.packet_index
          ((s.rb_buf s.packet_index ||| (bit_decision <<< j)) % 256)
        sample_idx := s.sample_idx + SAMPLE_PER_SYMBOL
        sample_reads := (s.sample_idx + 1) :: s.sample_idx :: s.sample_reads }

/-- The byte loop `for (i = 0; i < num_demod_byte; i++)` of
`handlePDUHeaderState` (lines 158-174); `n` iterations remain. -/
def headerBytes {D : Type} : Nat → FSKRxProcessor D → FSKRxProcessor D
  | 0, s => s
  | n + 1, s =>
    let s1 := headerBits 8 0 { s with rb_buf := store s.rb_buf s.packet_index 0 }
    headerBytes n { s1 with packet_index := (s1.packet_index + 1) % 65536 }

/-- Source: `FSKRxProcessor::handlePDUHeaderState`. -/
def handlePDUHeaderState {D : Type} (s : FSKRxProcessor D) : FSKRxProcessor D :=
  let num_demod_byte : Nat := 2
  let s1 : FSKRxProcessor D :=
    { s with
      symbols_eaten :=
        s.symbols_eaten + ((8 * num_demod_byte * SAMPLE_PER_SYMBOL : Nat) : Int) }
  if s1.symbols_eaten > (dst_buffer_count : Int) then s1
  else
    let s2 : FSKRxProcessor D :=
      { s1 with
        sample_idx :=
          s1.symbols_eaten - ((8 * num_demod_byte * SAMPLE_PER_SYMBOL : Nat) : Int)
        packet_index := 0 }
    let s3 := headerBytes num_demod_byte s2
    { s3 with parseState := Parse_State.Parse_State_PDU_Payload }

/-! ## Payload state -/

/-- The bit loop of `handlePDUPayloadState` (lines 191-201). -/
def payloadBits {D : Type} : Nat → Nat → FSKRxProcessor D → FSKRxProcessor D
  | 0, _, s => s
  | n + 1, j, s =>
    let I0 := (s.dst s.sample_idx).re
    let Q0 := (s.dst s.sample_idx).im
    let I1 := (s.dst (s.sample_idx + 1)).re
    let Q1 := (s.dst (s.sample_idx + 1)).im
    let bit_decision := payloadBitDecision I0 Q0 I1 Q1
    payloadBits n (j + 1)
      { s with
        bit_decision := bit_decision
        rb_buf := store s.rb_buf s.packet_index
          ((s.rb_buf s.packet_index ||| (bit_decision <<< j)) % 256)
        sample_idx := s.sample_idx + SAMPLE_PER_SYMBOL
        sample_reads := (s.sample_idx + 1) :: s.sample_idx :: s.sample_reads }

/-- The byte loop of `handlePDUPayloadState` (lines 188-204). -/
def payloadBytes {D : Type} : Nat → FSKRxProcessor D → FSKRxProcessor D
  | 0, s => s
  | n + 1, s =>
    let s1 := payloadBits 8 0 { s with rb_buf := store s.rb_buf s.packet_index 0 }
    payloadBytes n { s1 with packet_index := (s1.packet_index + 1) % 65536 }

/-- The copy loop `for (i = 0; i < payload_len - 6; i++)
data[i] = rb_buf[startIndex++]` (lines 225-227), `startIndex` being a
`uint8_t`; `n` iterations remain. Returns `data` and the final `i`. -/
def copyData (rb_buf : Nat → Nat) : Nat → Nat → Nat → (Nat → Nat) → (Nat → Nat) × Nat
  | 0, i, _, data => (data, i)
  | n + 1, i, startIndex, data =>
    copyData rb_buf n (i + 1) ((startIndex + 1) % 256) (store data i (rb_buf startIndex))

/-- Source: `FSKRxProcessor::handlePDUPayloadState`. -/
def handlePDUPayloadState {D : Type} (s : FSKRxProcessor D) : FSKRxProcessor D :=
  let num_demod_byte : Nat := s.payload_len + 3
  let s1 : FSKRxProcessor D :=
    { s with
      symbols_eaten :=
        s.symbols_eaten + ((8 * num_demod_byte * SAMPLE_PER_SYMBOL : Nat) : Int) }
  if s1.symbols_eaten > (dst_buffer_count : Int) then s1
  else
    let s2 := payloadBytes num_demod_byte s1
    let deviceId := store s2.fskPacketData.deviceId 0 (s2.rb_buf 7)
    let deviceId := store deviceId 1 (s2.rb_buf 6)
    let deviceId := store deviceId 2 (s2.rb_buf 5)
    let deviceId := store deviceId 3 (s2.rb_buf 4)
    let deviceId := store deviceId 4 (s2.rb_buf 3)
    let deviceId := store deviceId 5 (s2.rb_buf 2)
    let c := copyData s2.rb_buf (((s2.payload_len : Int) - 6).toNat) 0 8
      s2.fskPacketData.data
    let pkt : FskPacketData :=
      { max_dB := s2.max_dB
        type := s2.pdu_type
        size := s2.payload_len
        dataLen := c.2
        deviceId := deviceId
        data := c.1 }
    { s2 with
      fskPacketData := pkt
      application_queue := s2.application_queue ++ [pkt]
      parseState := Parse_State.Parse_State_Begin }

/-! ## execute, configure, on_message -/

/-- Unsigned reading of a signed byte. -/
def toUInt8 (x : Int) : Nat := (x % 256).toNat

/-- The 32-bit word that `*__SIMD32(src_p)++` loads as its `k`-th word from a
`complex8_t` array (little-endian): the two samples `2k` and `2k + 1`. -/
def simd32Word (buffer : buffer_c8_t) (k : Nat) : Nat :=
  toUInt8 (buffer.p (2 * k)).re + 256 * toUInt8 (buffer.p (2 * k)).im
    + 65536 * (toUInt8 (buffer.p (2 * k + 1)).re + 256 * toUInt8 (buffer.p (2 * k + 1)).im)

/-- The intrinsic `__SMUAD(x, y)`: sum of the products of the signed low and
high half-words, as a 32-bit result read unsigned. -/
def SMUAD (x y : Nat) : Nat :=
  ((toInt16 (x % 65536) * toInt16 (y % 65536)
    + toInt16 (x / 65536) * toInt16 (y / 65536)) % 4294967296).toNat

/-- The loop `while (src_p < &buffer.p[buffer.count])` of `execute`
(lines 247-253); `n` words remain, `k` is the index of the next word. -/
def maxSquaredLoop (buffer : buffer_c8_t) : Nat → Nat → Nat → Nat
  | 0, _, max_squared => max_squared
  | n + 1, k, max_squared =>
    let sample := simd32Word buffer k
    let mag_sq := SMUAD sample sample
    maxSquaredLoop buffer n (k + 1) (if mag_sq > max_squared then mag_sq else max_squared)

/-- The value of `max_squared` after the loop: one word per four bytes below
the end of the `2 * count` bytes of the buffer. -/
def maxSquared (buffer : buffer_c8_t) : Nat :=
  maxSquaredLoop buffer ((2 * buffer.count + 3) / 4) 0 0

/-- Lines 242-263 of `execute`: level estimate, decimation into `dst_buffer`,
and `symbols_eaten = 0`. The call `feed_channel_stats` belongs to the base
class and touches none of the fields kept here. -/
def executePrologue {D : Type} (E : Externals D) (s : FSKRxProcessor D)
    (buffer : buffer_c8_t) : FSKRxProcessor D :=
  let max_squared := maxSquared buffer
  let d := E.decim_execute s.decim_0 buffer s.dst
  { s with
    max_dB := E.mag2_to_dbv_norm max_squared
    decim_0 := d.1
    dst := d.2
    symbols_eaten := 0 }

/-- Source: `FSKRxProcessor::execute`. -/
def execute {D : Type} (E : Externals D) (s : FSKRxProcessor D) (buffer : buffer_c8_t) :
    FSKRxProcessor D :=
  if s.configured = false then s
  else
    let s1 := executePrologue E s buffer
    let s2 := if s1.parseState = Parse_State.Parse_State_Begin then handleBeginState s1 else s1
    let s3 :=
      if s2.parseState = Parse_State.Parse_State_PDU_Header then handlePDUHeaderState s2 else s2
    if s3.parseState = Parse_State.Parse_State_PDU_Payload then handlePDUPayloadState s3 else s3

/-- Source: `FSKRxProcessor::configure`; `deviation` is the field of the
configuration message, stored into the `uint8_t` member `channel_number`. -/
def configure {D : Type} (E : Externals D) (s : FSKRxProcessor D) (deviation : Nat) :
    FSKRxProcessor D :=
  { s with
    channel_number := deviation % 256
    decim_0 := E.decim_configure s.decim_0
    configured := true }

/-- A message as `on_message` sees it: the configuration message with its
`deviation`, or any other message identifier. -/
inductive Message where
  | FSKRxConfigure (deviation : Nat)
  | other (id : Nat)

/-- Source: `FSKRxProcessor::on_message`. -/
def on_message {D : Type} (E : Externals D) (s : FSKRxProcessor D) (message : Message) :
    FSKRxProcessor D :=
  match message with
  | Message.FSKRxConfigure deviation => configure E s deviation
  | Message.other _ => s


/-! ## Application side (fsk_rx_app.cpp / fsk_rx_app.hpp) -/

/-- The constant `UINT64_MAX`. -/
def UINT64_MAX : Nat := 18446744073709551615

/-- Source: `get_freq_by_channel_number` (fsk_rx_app.cpp, lines 91-103); the
argument is a `uint8_t`, the arithmetic is in `unsigned long long`. -/
def get_freq_by_channel_number (channel_number : Nat) : Nat :=
  if channel_number ≤ 15 then
    (902075000 + (channel_number * 25000) % 18446744073709551616) % 18446744073709551616
  else UINT64_MAX

/-- The helpers of string_format.hpp that `on_data` calls. -/
structure StringFormat where
  to_string_mac_address : (Nat → Nat) → Nat → Bool → String
  to_string_dec_uint : Nat → String
  to_string_hex : Nat → Nat → String

/-- The loop `for (i = 0; i < packet->dataLen; i++)` of `on_data`
(lines 235-237); `n` iterations remain. -/
def on_data_bytes (F : StringFormat) (packet : FskPacketData) : Nat → Nat → String → String
  | 0, _, str_console => str_console
  | n + 1, i, str_console =>
    on_data_bytes F packet n (i + 1) (str_console ++ F.to_string_hex (packet.data i) 2)

/-- Source: `FskRxView::on_data` (lines 217-239): the text `str_console` it
builds for a packet. -/
def on_data (F : StringFormat) (packet : FskPacketData) : String :=
  let str_console := ""
  let str_console := str_console ++ "Device ID:"
  let str_console := str_console ++ F.to_string_mac_address packet.deviceId 6 false
  let str_console := str_console ++ " Len:"
  let str_console := str_console ++ F.to_string_dec_uint packet.size
  let str_console := str_console ++ "\n"
  let str_console := str_console ++ "Data:"
  let str_console := on_data_bytes F packet packet.dataLen 0 str_console
  str_console ++ "\n"

/-- Source: `FskRxView::on_data` (lines 256-259): what is handed to the logger,
if anything. -/
def on_data_logged (F : StringFormat) (logger logging : Bool) (packet : FskPacketData) :
    Option String :=
  if logger && logging then some (on_data F packet) else none

/-- The member of `FskRecentEntry` a sort goes by. -/
inductive SortKey where
  | numHits
  | dbValue
  | timestamp
  | nameString
  deriving DecidableEq, Repr

/-- Source: `FskRxView::handle_entries_sort` (lines 332-355): the call of
`sortEntriesBy` it makes, as the key and the `ascending` flag; `none` for the
default branch, which sorts nothing. -/
def handle_entries_sort (index : Nat) : Option (SortKey × Bool) :=
  match index with
  | 0 => some (SortKey.numHits, false)
  | 1 => some (SortKey.dbValue, false)
  | 2 => some (SortKey.timestamp, false)
  | 3 => some (SortKey.nameString, true)
  | _ => none

/-- Source: the entries of `options_sort` (fsk_rx_app.hpp, lines 202-208):
label and value. -/
def options_sort : List (String × Int) :=
  [("Hits", 0), ("dB", 1), ("Time", 3), ("Name", 4)]

/-- Source: `options_sort.on_change` (fsk_rx_app.cpp, lines 194-197): the value
`v` of the chosen entry goes to `handle_entries_sort`, whose parameter is a
`uint8_t`. -/
def options_sort_on_change (_index : Nat) (v : Int) : Option (SortKey × Bool) :=
  handle_entries_sort (v % 256).toNat

/-- Choosing the entry with the given label in the sort selector: the
selector calls `on_change` with the position and the value of that entry. -/
def chooseSort (label : String) : Option (SortKey × Bool) :=
  match options_sort.findIdx? (fun e => e.1 == label), options_sort.find? (fun e => e.1 == label) with
  | some index, some e => options_sort_on_change index e.2
  | _, _ => none

/-- Value of a 16-bit two's-complement `int16_t` holding the result `x`. -/
def wrapInt16 (x : Int) : Int := (x + 32768) % 65536 - 32768

/-- The members of `FskRxView` that `on_timer` reads or writes, with what it
hands to the two collaborators: `frequency_value` is the last argument of
`field_frequency.set_value`, `fsk_channel` the last argument of
`baseband::set_fsk`. -/
structure FskRxView where
  timer_count : Int
  timer_period : Int
  auto_channel : Bool
  frequency_value : Option Nat
  fsk_channel : Option Int

/-- Source: `FskRxView::on_timer` (fsk_rx_app.cpp, lines 316-330); `rand` is the
value returned by `std::rand()`, which is not negative. The channel goes to
`get_freq_by_channel_number` as a `uint8_t`. -/
def on_timer (v : FskRxView) (rand : Nat) : FskRxView :=
  let timer_count := wrapInt16 (v.timer_count + 1)
  if timer_count = v.timer_period then
    if v.auto_channel then
      let min : Int := 37
      let max : Int := 39
      let randomChannel : Int := min + (rand : Int) % (max - min + 1)
      { v with
        timer_count := 0
        frequency_value := some (get_freq_by_channel_number (randomChannel % 256).toNat)
        fsk_channel := some randomChannel }
    else { v with timer_count := 0 }
  else { v with timer_count := timer_count }

/-- A call made on the processor from outside. -/
inductive Call where
  | message (m : Message)
  | execute (buffer : buffer_c8_t)

/-- One call applied to the processor. -/
def applyCall {D : Type} (E : Externals D) (s : FSKRxProcessor D) : Call → FSKRxProcessor D
  | Call.message m => on_message E s m
  | Call.execute buffer => execute E s buffer

/-- A sequence of calls applied in order. -/
def runCalls {D : Type} (E : Externals D) (s : FSKRxProcessor D) (calls : List Call) :
    FSKRxProcessor D :=
  calls.foldl (applyCall E) s

/-! ## Specification-side definitions and reference inputs -/

/-- Spec (4.3, Differential Bit Demodulator): the bit is 1 if
`I[i] * Q[i+1] - I[i+1] * Q[i]` is positive, else 0, over the integers. -/
def specBitDecision (I0 Q0 I1 Q1 : Int) : Nat :=
  if I0 * Q1 - I1 * Q0 > 0 then 1 else 0

/-- The range of a 16-bit signed sample component. -/
def isInt16 (x : Int) : Prop := -32768 ≤ x ∧ x ≤ 32767

/-- What the search loop of `handleBeginState` leaves alone: every field except
`phase_idx`, the window, `syncByte` and the ghost read log. -/
def SearchFrame {D : Type} (s t : FSKRxProcessor D) : Prop :=
  t = { s with
        phase_idx := t.phase_idx
        demod_buf_access := t.demod_buf_access
        syncByte := t.syncByte
        sample_reads := t.sample_reads }

/-- The bit decided for symbol `k` of the decimated buffer by the Begin search
(lines 72-79 with `i + j = k`). -/
def symbolBit (dst : Int → Complex16) (k : Nat) : Nat :=
  beginBitDecision (dst (k : Int)).re (dst (k : Int)).im
    (dst ((k : Int) + 1)).re (dst ((k : Int) + 1)).im

/-- The bit at position `k` of the current buffer as the window sees it: the
decided bit for a symbol of the buffer, the zero fill for a position before it. -/
def streamBit (dst : Int → Complex16) (k : Int) : Nat :=
  if 0 ≤ k then symbolBit dst k.toNat else 0

/-- The 32 window positions ending at symbol `i` spell the sync word, oldest
position against bit 0. -/
def matchAt (dst : Int → Complex16) (i : Nat) : Prop :=
  ∀ p : Nat, p < 32 → streamBit dst ((i : Int) - 31 + (p : Int)) = SYNC_BYTE_BLE / 2 ^ p % 2

instance (dst : Int → Complex16) (i : Nat) : Decidable (matchAt dst i) := by
  unfold matchAt; exact inferInstance

/-- State of the search on entering the iteration for symbol `i` with no match
so far: the write position is `i mod 32` and each of the last 32 positions
before `i` sits in the slot of its index modulo 32. -/
def WindowAt {D : Type} (dst : Int → Complex16) (i : Nat) (b : BeginSearch D) : Prop :=
  b.self.dst = dst ∧ b.demod_buf_offset = i % 32 ∧ b.hit_idx = -1 ∧
  ∀ k : Int, (i : Int) - 32 ≤ k → k < (i : Int) →
    b.self.demod_buf_access 0 (k % 32).toNat = streamBit dst k

/-- The processor as constructed by `std::make_unique<FSKRxProcessor>()`: the
member initialisers of proc_fsk_rx.hpp, zero for the members without one and
for the static window; `d` is the decimator as constructed. -/
def FSKRxProcessor.initial {D : Type} (d : D) : FSKRxProcessor D :=
  { dst := fun _ => ⟨0, 0⟩
    rb_buf := fun _ => 0
    decim_0 := d
    channel_number := 37
    configured := false
    fskPacketData := ⟨0, 0, 0, 0, fun _ => 0, fun _ => 0⟩
    parseState := Parse_State.Parse_State_Begin
    packet_index := 0
    phase_idx := 0
    sample_idx := 0
    symbols_eaten := 0
    bit_decision := 0
    payload_len := 0
    pdu_type := 0
    max_dB := 0
    syncByte := 0
    demod_buf_access := fun _ _ => 0
    application_queue := []
    sample_reads := [] }

/-- A stand-in for the externals, used by the examples: the `k`-th decimated
sample is the `k`-th raw sample, and the level is the peak value itself. -/
def passThrough : Externals Unit :=
  { decim_configure := fun d => d
    decim_execute := fun d buffer _ =>
      (d, fun k => if 0 ≤ k then ⟨(buffer.p k.toNat).re, (buffer.p k.toNat).im⟩ else ⟨0, 0⟩)
    mag2_to_dbv_norm := fun m => (m : Int) }

/-- Unit sample at a quarter-turn phase. -/
def quarterTurn (k : Nat) : Complex8 :=
  match k % 4 with
  | 0 => ⟨1, 0⟩
  | 1 => ⟨0, 1⟩
  | 2 => ⟨-1, 0⟩
  | _ => ⟨0, -1⟩

/-- Samples carrying the given bits, one symbol per bit: starting at phase `k`,
the phase advances a quarter turn for a 1 and goes back a quarter turn for a 0. -/
def samplesOfBits : List Nat → Nat → List Complex8
  | [], k => [quarterTurn k]
  | b :: bs, k => quarterTurn k :: samplesOfBits bs (if b = 1 then k + 1 else k + 3)

/-- A raw buffer of 2048 samples: the listed ones first, zero samples after. -/
def rawOf (l : List Complex8) : buffer_c8_t :=
  { p := fun k => l.getD k ⟨0, 0⟩, count := 2048 }

/-- Bits `start .. 31` of the sync word, least significant first. -/
def syncBitsFrom (start : Nat) : List Nat :=
  (List.range (32 - start)).map (fun p => SYNC_BYTE_BLE / 2 ^ (p + start) % 2)

/-- A configured processor, otherwise as constructed. -/
def ready : FSKRxProcessor Unit := configure passThrough (FSKRxProcessor.initial ()) 37

/-- The processor about to handle a buffer whose symbols 0..31 carry the 32
bits of the sync word. -/
def syncAtStart : FSKRxProcessor Unit :=
  executePrologue passThrough ready (rawOf (samplesOfBits (syncBitsFrom 0) 0))

/-- The processor about to handle a buffer whose symbols 0..30 carry bits
1..31 of the sync word and whose symbols 31..62 carry the whole sync word. -/
def syncCutShort : FSKRxProcessor Unit :=
  executePrologue passThrough ready
    (rawOf (samplesOfBits (syncBitsFrom 1 ++ syncBitsFrom 0) 0))

/-- The processor about to handle a buffer of zero samples. -/
def quietBuffer : FSKRxProcessor Unit :=
  executePrologue passThrough ready (rawOf [])

/-- A raw buffer whose only non-zero samples are 510 and 511, a quarter turn
apart: symbol 510 decides to 1, every other symbol to 0. -/
def rawLateBit : buffer_c8_t :=
  { p := fun k => if k = 510 then ⟨1, 0⟩ else if k = 511 then ⟨0, 1⟩ else ⟨0, 0⟩
    count := 2048 }

/-- A configured processor in the Payload state with a past sync capture. -/
def midPayload : FSKRxProcessor Unit :=
  { ready with parseState := Parse_State.Parse_State_PDU_Payload, syncByte := 0x8E89BED6 }

/-- A configured processor in the Payload state with declared length 62. -/
def payload62 : FSKRxProcessor Unit :=
  { ready with parseState := Parse_State.Parse_State_PDU_Payload, payload_len := 62 }

/-- A processor entering the Header handler with 496 symbols already consumed. -/
def headerAt496 : FSKRxProcessor Unit :=
  { ready with parseState := Parse_State.Parse_State_PDU_Header, symbols_eaten := 496 }

/-- What the byte loops of the Header and Payload handlers leave alone: every
field except `rb_buf`, `packet_index`, `sample_idx`, `bit_decision` and the ghost
read log. -/
def ExtractFrame {D : Type} (s t : FSKRxProcessor D) : Prop :=
  t = { s with
        rb_buf := t.rb_buf
        packet_index := t.packet_index
        sample_idx := t.sample_idx
        bit_decision := t.bit_decision
        sample_reads := t.sample_reads }

/-- The bit decided by the Header handler for the symbol at sample index `k`
(lines 162-167 with `sample_idx = k`). -/
def headerSymbolBit (dst : Int → Complex16) (k : Int) : Nat :=
  headerBitDecision (dst k).re (dst k).im (dst (k + 1)).re (dst (k + 1)).im

/-- The processor after one pass of the bit loop of the Header handler with
loop counter `j` (lines 162-170). -/
def headerStep {D : Type} (j : Nat) (s : FSKRxProcessor D) : FSKRxProcessor D :=
  { s with
    bit_decision := headerSymbolBit s.dst s.sample_idx
    rb_buf := store s.rb_buf s.packet_index
      ((s.rb_buf s.packet_index ||| (headerSymbolBit s.dst s.sample_idx <<< j)) % 256)
    sample_idx := s.sample_idx + SAMPLE_PER_SYMBOL
    sample_reads := (s.sample_idx + 1) :: s.sample_idx :: s.sample_reads }

/-- The processor after one pass of the byte loop of the Header handler
(lines 159-173). -/
def headerByteStep {D : Type} (s : FSKRxProcessor D) : FSKRxProcessor D :=
  { headerBits 8 0 { s with rb_buf := store s.rb_buf s.packet_index 0 } with
    packet_index :=
      ((headerBits 8 0 { s with rb_buf := store s.rb_buf s.packet_index 0 }).packet_index + 1)
        % 65536 }

/-- The squared magnitude `I^2 + Q^2` of raw sample `k`. -/
def sampleMagSq (buffer : buffer_c8_t) (k : Nat) : Nat :=
  ((buffer.p k).re * (buffer.p k).re + (buffer.p k).im * (buffer.p k).im).toNat

/-- The maximum of `I^2 + Q^2` over the first `n` raw samples, 0 for none. -/
def specMaxSquaredOf (buffer : buffer_c8_t) : Nat → Nat
  | 0 => 0
  | n + 1 => max (specMaxSquaredOf buffer n) (sampleMagSq buffer n)

/-- Spec (4.1, Power Estimator): the maximum over the raw samples of the
buffer of the squared magnitude `I^2 + Q^2`, 0 for an empty buffer. -/
def specMaxSquared (buffer : buffer_c8_t) : Nat :=
  specMaxSquaredOf buffer buffer.count

/-- Spec (6, sort modes, and the labels of the selector): the sort each label
names. -/
def specSortMode (label : String) : Option (SortKey × Bool) :=
  if label = "Hits" then some (SortKey.numHits, false)
  else if label = "dB" then some (SortKey.dbValue, false)
  else if label = "Time" then some (SortKey.timestamp, false)
  else if label = "Name" then some (SortKey.nameString, true)
  else none

/-- The text of `n` data bytes from index `i` on: `to_string_hex(data[k], 2)`
for each of them, in order, nothing in between. -/
def dataText (F : StringFormat) (data : Nat → Nat) : Nat → Nat → String
  | _, 0 => ""
  | i, n + 1 => F.to_string_hex (data i) 2 ++ dataText F data (i + 1) n

/-- Spec (6, log line format), with the separator the spec puts after the
device id: a newline. -/
def specLogText (F : StringFormat) (packet : FskPacketData) : String :=
  "Device ID:" ++ F.to_string_mac_address packet.deviceId 6 false ++ "\n"
    ++ "Len:" ++ F.to_string_dec_uint packet.size ++ "\n"
    ++ "Data:" ++ dataText F packet.data 0 packet.dataLen ++ "\n"

/-- One hexadecimal digit, upper case. -/
def hexDigit (n : Nat) : Char :=
  if n < 10 then Char.ofNat (48 + n) else Char.ofNat (55 + n)

/-- Modelled from the spec: `to_string_hex(value, l)` of string_format.hpp,
which is not among the sources: the `l` low hexadecimal digits of the value,
most significant first ("hex bytes, 2 digits each"). -/
def to_string_hex (value : Nat) : Nat → String
  | 0 => ""
  | l + 1 => to_string_hex (value / 16) l ++ String.singleton (hexDigit (value % 16))

/-- The first `n` bytes of an array in hexadecimal, two digits each. -/
def hexBytes (a : Nat → Nat) : Nat → String
  | 0 => ""
  | n + 1 => hexBytes a n ++ to_string_hex (a n) 2

/-- Modelled from the spec: `to_string_mac_address(bytes, length, separators)`
of string_format.hpp, which is not among the sources: two hexadecimal digits
for each byte, in order ("12-hex-digit MAC, no separators" for six bytes);
with separators a colon goes between the bytes. -/
def to_string_mac_address (a : Nat → Nat) (length : Nat) (separators : Bool) : String :=
  if separators then
    String.intercalate ":" ((List.range length).map (fun i => to_string_hex (a i) 2))
  else hexBytes a length

/-- Modelled from the spec: `to_string_dec_uint(n)` of string_format.hpp,
which is not among the sources: the decimal digits of `n`. -/
def to_string_dec_uint (n : Nat) : String := Nat.repr n

/-- The string helpers as modelled from the spec. -/
def stringFormat : StringFormat :=
  { to_string_mac_address := to_string_mac_address
    to_string_dec_uint := to_string_dec_uint
    to_string_hex := to_string_hex }

/-- A packet as the Begin handler fills it on a hit. -/
def syncPacket : FskPacketData :=
  (handleBeginState syncAtStart).fskPacketData

/-- A raw buffer of 2048 samples, the first one (0, 1), the others (0, 0). -/
def rawUnitQ : buffer_c8_t :=
  { p := fun k => if k = 0 then ⟨0, 1⟩ else ⟨0, 0⟩, count := 2048 }

/-- A processor entering the Header handler with 500 symbols already consumed. -/
def headerAt500 : FSKRxProcessor Unit :=
  { ready with parseState := Parse_State.Parse_State_PDU_Header, symbols_eaten := 500 }

/-- A configured processor in the Payload state with declared length 10 and a
level estimate of -40. -/
def payload10 : FSKRxProcessor Unit :=
  { ready with
    parseState := Parse_State.Parse_State_PDU_Payload
    payload_len := 10
    pdu_type := 2
    max_dB := -40 }

/-- The view with the auto-channel mode on, one timer call before the tick. -/
def autoView : FskRxView :=
  { timer_count := 5, timer_period := 6, auto_channel := true,
    frequency_value := none, fsk_channel := none }

/-- A configured processor in the Payload state with declared length 3. -/
def payload3 : FSKRxProcessor Unit :=
  { ready with parseState := Parse_State.Parse_State_PDU_Payload, payload_len := 3 }

/-! ## Lemmas -/

theorem getBitAtIndex_ofNat (value p : Nat) (hp : p < 32) :
    getBitAtIndex value (p : Int) = value / 2 ^ p % 2 := by
  unfold getBitAtIndex
  have h1 : (0 : Int) ≤ (p : Int) ∧ (p : Int) < 32 := by omega
  rw [if_pos h1, Int.toNat_ofNat, Nat.shiftRight_eq_div_pow]
  exact Nat.and_one_is_mod _

theorem maskLow_succ (k : Nat) :
    maskLow ((k : Int) + 1) (LEN_DEMOD_BUF_ACCESS - 1) = (k + 1) % 32 := by
  unfold maskLow LEN_DEMOD_BUF_ACCESS
  omega

theorem testBit_bit_shiftLeft (f p j : Nat) (hp : p < 32) :
    (((f / 2 ^ p % 2) <<< p) % 4294967296).testBit j = (decide (j = p) && f.testBit p) := by
  have e : (4294967296 : Nat) = 2 ^ 32 := by norm_num
  rw [e, Nat.testBit_mod_two_pow, Nat.testBit_shiftLeft]
  by_cases hj : j = p
  · subst hj
    simp [hp, Nat.testBit_to_div_mod]
  · have h2 : f / 2 ^ p % 2 < 2 := Nat.mod_lt _ (by decide)
    by_cases hge : j ≥ p
    · have : (f / 2 ^ p % 2).testBit (j - p) = false := by
        apply Nat.testBit_lt_two_pow
        calc f / 2 ^ p % 2 < 2 ^ 1 := h2
          _ ≤ 2 ^ (j - p) := Nat.pow_le_pow_right (by decide) (by omega)
      simp [hj, this]
    · simp [hj, hge]

theorem testBit_syncByte_step (sb f p j : Nat) (hp : p < 32) :
    ((sb &&& (0xFFFFFFFF ^^^ ((1 <<< p) % 4294967296)))
        ||| (((f / 2 ^ p % 2) <<< p) % 4294967296)).testBit j
      = if j = p then f.testBit p else (decide (j < 32) && sb.testBit j) := by
  rw [Nat.testBit_or, testBit_bit_shiftLeft f p j hp, Nat.testBit_and, Nat.testBit_xor]
  have e1 : (0xFFFFFFFF : Nat) = 2 ^ 32 - 1 := by norm_num
  have e2 : (1 <<< p) % 4294967296 = 2 ^ p := by
    rw [Nat.one_shiftLeft]
    apply Nat.mod_eq_of_lt
    calc 2 ^ p < 2 ^ 32 := Nat.pow_lt_pow_right (by decide) hp
      _ = 4294967296 := by norm_num
  rw [e1, e2, Nat.testBit_two_pow_sub_one, Nat.testBit_two_pow]
  by_cases hj : j = p
  · subst hj; simp [hp]
  · have hj' : ¬ p = j := fun h => hj h.symm
    simp [hj, hj']
    cases sb.testBit j <;> simp




theorem checkSyncLoop_testBit (f : Nat) (w : Nat → Nat) :
    ∀ (n p k sb : Nat), p + n ≤ 32 → (checkSyncLoop f w n p k sb).1 = false →
      ∀ j, (checkSyncLoop f w n p k sb).2.testBit j =
        if p ≤ j ∧ j < p + n then f.testBit j
        else if n = 0 then sb.testBit j else (decide (j < 32) && sb.testBit j) := by
  intro n
  induction n with
  | zero =>
    intro p k sb _ _ j
    have c : ¬ (p ≤ j ∧ j < p) := by omega
    simp [checkSyncLoop, c]
  | succ n ih =>
    intro p k sb hp hres j
    rw [checkSyncLoop, getBitAtIndex_ofNat _ _ (by omega)] at hres ⊢
    by_cases h : w k = f / 2 ^ p % 2
    · rw [if_neg (by simpa using h)] at hres ⊢
      rw [ih (p + 1) _ _ (by omega) hres j, h]
      simp only [testBit_syncByte_step sb f p _ (show p < 32 by omega)]
      by_cases hj : j = p
      · subst hj
        have c1 : ¬ (j + 1 ≤ j ∧ j < j + 1 + n) := by omega
        have c2 : (j ≤ j ∧ j < j + (n + 1)) := by omega
        have c3 : j < 32 := by omega
        simp [c1, c2, c3]
      · by_cases hr : p + 1 ≤ j ∧ j < p + 1 + n
        · have c2 : (p ≤ j ∧ j < p + (n + 1)) := by omega
          simp [hr, c2]
        · have c2 : ¬ (p ≤ j ∧ j < p + (n + 1)) := by omega
          simp only [if_neg hr, if_neg c2, if_neg hj, if_neg (Nat.succ_ne_zero n)]
          by_cases hn : n = 0
          · simp [hn]
          · simp [hn]
    · rw [if_pos (by simpa using h)] at hres
      cases hres

theorem checkSync_syncByte (f : Nat) (w : Nat → Nat) (k sb : Nat) (hf : f < 4294967296)
    (h : (checkSync f w k sb).1 = false) : (checkSync f w k sb).2 = f := by
  apply Nat.eq_of_testBit_eq
  intro j
  have key := checkSyncLoop_testBit f w 32 0 k sb (by omega) h j
  have e : (checkSync f w k sb).2 = (checkSyncLoop f w 32 0 k sb).2 := rfl
  rw [e, key]
  by_cases hj : j < 32
  · simp [hj]
  · have : f.testBit j = false := by
      apply Nat.testBit_lt_two_pow
      calc f < 2 ^ 32 := by simpa using hf
        _ ≤ 2 ^ j := Nat.pow_le_pow_right (by decide) (by omega)
    simp [hj, this]





theorem beginPhases_one {D : Type} (sp i : Nat) (b : BeginSearch D) :
    beginPhases sp i SAMPLE_PER_SYMBOL 0 b = beginPhase sp i 0 b := by
  show beginPhases sp i 1 0 b = _
  simp only [beginPhases]
  split <;> rfl

theorem SearchFrame.rfl {D : Type} (s : FSKRxProcessor D) : SearchFrame s s := by
  unfold SearchFrame; rfl

theorem SearchFrame.trans {D : Type} {s t u : FSKRxProcessor D}
    (h1 : SearchFrame s t) (h2 : SearchFrame t u) : SearchFrame s u := by
  unfold SearchFrame at *
  rw [h2, h1]

theorem beginPhase_frame {D : Type} (sp i j : Nat) (b : BeginSearch D) :
    SearchFrame b.self (beginPhase sp i j b).self := by
  unfold SearchFrame beginPhase
  dsimp only
  split <;> rfl

theorem beginSymbols_frame {D : Type} :
    ∀ (n i : Nat) (b : BeginSearch D), SearchFrame b.self (beginSymbols n i b).self := by
  intro n
  induction n with
  | zero => intro i b; exact SearchFrame.rfl _
  | succ n ih =>
    intro i b
    rw [beginSymbols, beginPhases_one]
    split
    · exact beginPhase_frame _ _ _ _
    · exact SearchFrame.trans (beginPhase_frame _ i 0 b) (ih _ _)

theorem beginSearch_frame {D : Type} (s : FSKRxProcessor D) :
    SearchFrame s (beginSearch s).self := by
  have h0 : SearchFrame s (beginInit s).self := by
    unfold SearchFrame beginInit; rfl
  unfold beginSearch
  exact SearchFrame.trans h0 (beginSymbols_frame _ _ _)

theorem beginPhase_cases {D : Type} (sp i j : Nat) (b : BeginSearch D) :
    ((beginPhase sp i j b).unequal_flag = false ∧
      (beginPhase sp i j b).self.syncByte = SYNC_BYTE_BLE ∧
      (beginPhase sp i j b).hit_idx = (i : Int) + j - 31) ∨
    ((beginPhase sp i j b).unequal_flag = true ∧
      (beginPhase sp i j b).hit_idx = b.hit_idx ∧
      (beginPhase sp i j b).demod_buf_offset = b.demod_buf_offset) := by
  unfold beginPhase
  dsimp only
  split
  · rename_i h
    left
    refine ⟨rfl, ?_, ?_⟩
    · exact checkSync_syncByte _ _ _ _ (by decide) h
    · simp [LEN_DEMOD_BUF_ACCESS, SAMPLE_PER_SYMBOL]
  · right
    exact ⟨rfl, rfl, rfl⟩

theorem beginSymbols_hit_syncByte {D : Type} :
    ∀ (n i : Nat) (b : BeginSearch D), b.hit_idx = -1 →
      (beginSymbols n i b).hit_idx ≠ -1 →
      (beginSymbols n i b).self.syncByte = SYNC_BYTE_BLE := by
  intro n
  induction n with
  | zero => intro i b h0 h1; exact absurd h0 h1
  | succ n ih =>
    intro i b h0
    rw [beginSymbols, beginPhases_one]
    rcases beginPhase_cases
      (maskLow ((b.demod_buf_offset : Int) - LEN_DEMOD_BUF_ACCESS + 1) (LEN_DEMOD_BUF_ACCESS - 1))
      i 0 b with ⟨hf, hs, _⟩ | ⟨hf, hh, _⟩
    · rw [if_pos hf]
      intro _; exact hs
    · rw [if_neg (by simp [hf])]
      exact ih _ _ (by rw [← h0, ← hh])

theorem beginSearch_hit_syncByte {D : Type} (s : FSKRxProcessor D)
    (h : (beginSearch s).hit_idx ≠ -1) : (beginSearch s).self.syncByte = SYNC_BYTE_BLE := by
  unfold beginSearch at h ⊢
  exact beginSymbols_hit_syncByte _ _ (beginInit s) (by unfold beginInit; rfl) h


theorem wrapInt32_of_range (x : Int) (h1 : -2147483648 ≤ x) (h2 : x < 2147483648) :
    wrapInt32 x = x := by
  unfold wrapInt32
  omega

theorem int16_mul_bounds (a b : Int) (ha : isInt16 a) (hb : isInt16 b) :
    -1073741824 ≤ a * b ∧ a * b ≤ 1073741824 := by
  obtain ⟨ha1, ha2⟩ := ha
  obtain ⟨hb1, hb2⟩ := hb
  constructor
  · nlinarith [mul_nonneg (sub_nonneg.mpr ha1) (sub_nonneg.mpr hb2),
      mul_nonneg (sub_nonneg.mpr ha2) (sub_nonneg.mpr hb1)]
  · nlinarith [mul_nonneg (sub_nonneg.mpr ha1) (sub_nonneg.mpr hb1),
      mul_nonneg (sub_nonneg.mpr ha2) (sub_nonneg.mpr hb2)]

theorem int16_cross_bounds (I0 Q0 I1 Q1 : Int) (h0 : isInt16 I0) (h1 : isInt16 Q0)
    (h2 : isInt16 I1) (h3 : isInt16 Q1) :
    -2147483648 < I0 * Q1 - I1 * Q0 ∧ I0 * Q1 - I1 * Q0 < 2147483648 := by
  obtain ⟨a1, a2⟩ := h0
  obtain ⟨b1, b2⟩ := h1
  obtain ⟨c1, c2⟩ := h2
  obtain ⟨d1, d2⟩ := h3
  constructor
  · nlinarith [mul_nonneg (sub_nonneg.mpr a1) (sub_nonneg.mpr d2),
      mul_nonneg (sub_nonneg.mpr a2) (sub_nonneg.mpr d1),
      mul_nonneg (sub_nonneg.mpr c1) (sub_nonneg.mpr b1),
      mul_nonneg (sub_nonneg.mpr c2) (sub_nonneg.mpr b2)]
  · nlinarith [mul_nonneg (sub_nonneg.mpr a1) (sub_nonneg.mpr d1),
      mul_nonneg (sub_nonneg.mpr a2) (sub_nonneg.mpr d2),
      mul_nonneg (sub_nonneg.mpr c1) (sub_nonneg.mpr b2),
      mul_nonneg (sub_nonneg.mpr c2) (sub_nonneg.mpr b1)]

theorem wrapped_cross_eq (I0 Q0 I1 Q1 : Int) (h0 : isInt16 I0) (h1 : isInt16 Q0)
    (h2 : isInt16 I1) (h3 : isInt16 Q1) :
    wrapInt32 (wrapInt32 (I0 * Q1) - wrapInt32 (I1 * Q0)) = I0 * Q1 - I1 * Q0 := by
  have m1 := int16_mul_bounds I0 Q1 h0 h3
  have m2 := int16_mul_bounds I1 Q0 h2 h1
  have c := int16_cross_bounds I0 Q0 I1 Q1 h0 h1 h2 h3
  rw [wrapInt32_of_range (I0 * Q1) (by omega) (by omega),
    wrapInt32_of_range (I1 * Q0) (by omega) (by omega),
    wrapInt32_of_range _ (by omega) (by omega)]


theorem headerBits_queue {D : Type} :
    ∀ (n j : Nat) (s : FSKRxProcessor D),
      (headerBits n j s).application_queue = s.application_queue := by
  intro n
  induction n with
  | zero => intro j s; rfl
  | succ n ih => intro j s; rw [headerBits, ih]

theorem headerBytes_queue {D : Type} :
    ∀ (n : Nat) (s : FSKRxProcessor D),
      (headerBytes n s).application_queue = s.application_queue := by
  intro n
  induction n with
  | zero => intro s; rfl
  | succ n ih => intro s; rw [headerBytes, ih]; exact headerBits_queue _ _ _

theorem payloadBits_queue {D : Type} :
    ∀ (n j : Nat) (s : FSKRxProcessor D),
      (payloadBits n j s).application_queue = s.application_queue := by
  intro n
  induction n with
  | zero => intro j s; rfl
  | succ n ih => intro j s; rw [payloadBits, ih]

theorem payloadBytes_queue {D : Type} :
    ∀ (n : Nat) (s : FSKRxProcessor D),
      (payloadBytes n s).application_queue = s.application_queue := by
  intro n
  induction n with
  | zero => intro s; rfl
  | succ n ih => intro s; rw [payloadBytes, ih]; exact payloadBits_queue _ _ _

theorem beginSearch_queue {D : Type} (s : FSKRxProcessor D) :
    (beginSearch s).self.application_queue = s.application_queue := by
  have h := beginSearch_frame s
  unfold SearchFrame at h
  rw [h]

theorem beginSearch_parseState {D : Type} (s : FSKRxProcessor D) :
    (beginSearch s).self.parseState = s.parseState := by
  have h := beginSearch_frame s
  unfold SearchFrame at h
  rw [h]

theorem handleBeginState_hit {D : Type} (s : FSKRxProcessor D)
    (h : (beginSearch s).hit_idx ≠ -1) :
    handleBeginState s = beginHit (beginSearch s).self (beginSearch s).hit_idx := by
  unfold handleBeginState
  exact if_neg h

theorem handleBeginState_miss {D : Type} (s : FSKRxProcessor D)
    (h : (beginSearch s).hit_idx = -1) :
    handleBeginState s = (beginSearch s).self := by
  unfold handleBeginState
  exact if_pos h

theorem checkSyncLoop_false_iff (findSync : Nat) (w : Nat → Nat) :
    ∀ (n p k sb : Nat), p + n ≤ 32 → k < 32 →
      ((checkSyncLoop findSync w n p k sb).1 = false ↔
        ∀ q, q < n → w ((k + q) % 32) = findSync / 2 ^ (p + q) % 2) := by
  intro n
  induction n with
  | zero => intro p k sb _ _; simp [checkSyncLoop]
  | succ n ih =>
    intro p k sb hp hk
    rw [checkSyncLoop, getBitAtIndex_ofNat _ _ (by omega), maskLow_succ]
    by_cases h : w k = findSync / 2 ^ p % 2
    · rw [if_neg (by simpa using h), ih (p + 1) _ _ (by omega) (Nat.mod_lt _ (by decide))]
      constructor
      · intro hq q hlt
        rcases q with _ | q
        · simpa [Nat.mod_eq_of_lt hk] using h
        · have e : (k + (q + 1)) % 32 = ((k + 1) % 32 + q) % 32 := by omega
          rw [e, hq q (by omega)]
          congr 3; omega
      · intro hq q hlt
        have e : ((k + 1) % 32 + q) % 32 = (k + (q + 1)) % 32 := by omega
        rw [e, hq (q + 1) (by omega)]
        congr 3; omega
    · rw [if_pos (by simpa using h)]
      constructor
      · intro hf; cases hf
      · intro hq
        exact absurd (by simpa [Nat.mod_eq_of_lt hk] using hq 0 (by omega)) h


theorem handlePDUPayloadState_parseState {D : Type} (s : FSKRxProcessor D)
    (h0 : s.symbols_eaten = 0) :
    (handlePDUPayloadState s).parseState =
      if s.payload_len ≤ 61 then Parse_State.Parse_State_Begin else s.parseState := by
  unfold handlePDUPayloadState
  dsimp only
  have e : (s.symbols_eaten + ((8 * (s.payload_len + 3) * SAMPLE_PER_SYMBOL : Nat) : Int)
      > ((dst_buffer_count : Nat) : Int)) ↔ ¬ s.payload_len ≤ 61 := by
    unfold SAMPLE_PER_SYMBOL dst_buffer_count
    rw [h0]
    push_cast
    omega
  by_cases hl : s.payload_len ≤ 61
  · rw [if_neg (fun hgt => (e.mp hgt) hl), if_pos hl]
  · rw [if_pos (e.mpr hl), if_neg hl]

theorem execute_from_payload {D : Type} (E : Externals D) (s : FSKRxProcessor D)
    (buffer : buffer_c8_t) (hc : s.configured = true)
    (hp : s.parseState = Parse_State.Parse_State_PDU_Payload) :
    execute E s buffer = handlePDUPayloadState (executePrologue E s buffer) := by
  have h0 : (executePrologue E s buffer).parseState
      = Parse_State.Parse_State_PDU_Payload := hp
  unfold execute
  simp [hc, h0]

theorem window_after_store {D : Type} (dst : Int → Complex16) (i : Nat) (b : BeginSearch D)
    (h : WindowAt dst i b) (k : Int) (h1 : (i : Int) - 31 ≤ k) (h2 : k ≤ (i : Int)) :
    store (b.self.demod_buf_access 0) (i % 32) (symbolBit dst i) (k % 32).toNat
      = streamBit dst k := by
  obtain ⟨_, _, _, hw⟩ := h
  unfold store
  by_cases hk : k = (i : Int)
  · subst hk
    have e : ((i : Int) % 32).toNat = i % 32 := by omega
    rw [if_pos e]
    unfold streamBit
    rw [if_pos (by omega), Int.toNat_ofNat]
  · have e : ¬ (k % 32).toNat = i % 32 := by omega
    rw [if_neg e]
    exact hw k (by omega) (by omega)

theorem checkSync_window_iff {D : Type} (dst : Int → Complex16) (i : Nat) (b : BeginSearch D)
    (h : WindowAt dst i b) (sb : Nat) :
    (checkSync SYNC_BYTE_BLE
        (store (b.self.demod_buf_access 0) (i % 32) (symbolBit dst i))
        ((i + 1) % 32) sb).1 = false ↔ matchAt dst i := by
  have key := checkSyncLoop_false_iff SYNC_BYTE_BLE
    (store (b.self.demod_buf_access 0) (i % 32) (symbolBit dst i)) 32 0 ((i + 1) % 32) sb
    (by omega) (Nat.mod_lt _ (by decide))
  simp only [Nat.zero_add] at key
  have e : ∀ p, p < 32 →
      store (b.self.demod_buf_access 0) (i % 32) (symbolBit dst i) (((i + 1) % 32 + p) % 32)
        = streamBit dst ((i : Int) - 31 + (p : Int)) := by
    intro p hp
    rw [← window_after_store dst i b h ((i : Int) - 31 + (p : Int)) (by omega) (by omega)]
    congr 1
    omega
  unfold matchAt
  constructor
  · intro hc p hp
    rw [← e p hp]
    exact (key.mp hc) p hp
  · intro hm
    apply key.mpr
    intro p hp
    rw [e p hp]
    exact hm p hp


theorem beginPhase_window {D : Type} (sp i : Nat) (b : BeginSearch D) :
    (beginPhase sp i 0 b).self.demod_buf_access 0
      = store (b.self.demod_buf_access 0) b.demod_buf_offset (symbolBit b.self.dst i) := by
  unfold beginPhase symbolBit
  dsimp only
  split <;> simp [store]

theorem beginPhase_flag {D : Type} (sp i : Nat) (b : BeginSearch D) :
    (beginPhase sp i 0 b).unequal_flag
      = (checkSync SYNC_BYTE_BLE
          (store (b.self.demod_buf_access 0) b.demod_buf_offset (symbolBit b.self.dst i))
          sp 0).1 := by
  unfold beginPhase symbolBit
  dsimp only
  split
  · rename_i h
    simp only [store, Nat.cast_zero, add_zero, if_true] at h ⊢
    exact h.symm
  · rename_i h
    simp only [store, Nat.cast_zero, add_zero, if_true] at h ⊢
    simpa using h

theorem beginPhase_dst {D : Type} (sp i j : Nat) (b : BeginSearch D) :
    (beginPhase sp i j b).self.dst = b.self.dst := by
  have h := beginPhase_frame sp i j b
  unfold SearchFrame at h
  rw [h]

theorem beginPhase_step {D : Type} (dst : Int → Complex16) (i : Nat) (b : BeginSearch D)
    (h : WindowAt dst i b) :
    (matchAt dst i →
      (beginPhase (maskLow ((b.demod_buf_offset : Int) - LEN_DEMOD_BUF_ACCESS + 1)
          (LEN_DEMOD_BUF_ACCESS - 1)) i 0 b).unequal_flag = false ∧
      (beginPhase (maskLow ((b.demod_buf_offset : Int) - LEN_DEMOD_BUF_ACCESS + 1)
          (LEN_DEMOD_BUF_ACCESS - 1)) i 0 b).hit_idx = (i : Int) - 31) ∧
    (¬ matchAt dst i →
      (beginPhase (maskLow ((b.demod_buf_offset : Int) - LEN_DEMOD_BUF_ACCESS + 1)
          (LEN_DEMOD_BUF_ACCESS - 1)) i 0 b).unequal_flag = true ∧
      WindowAt dst (i + 1)
        { beginPhase (maskLow ((b.demod_buf_offset : Int) - LEN_DEMOD_BUF_ACCESS + 1)
            (LEN_DEMOD_BUF_ACCESS - 1)) i 0 b with
          demod_buf_offset :=
            maskLow (((beginPhase (maskLow ((b.demod_buf_offset : Int)
              - LEN_DEMOD_BUF_ACCESS + 1) (LEN_DEMOD_BUF_ACCESS - 1)) i 0 b).demod_buf_offset
                : Int) + 1) (LEN_DEMOD_BUF_ACCESS - 1) }) := by
  have hsp : maskLow ((b.demod_buf_offset : Int) - LEN_DEMOD_BUF_ACCESS + 1)
      (LEN_DEMOD_BUF_ACCESS - 1) = (i + 1) % 32 := by
    rw [h.2.1]; unfold maskLow LEN_DEMOD_BUF_ACCESS; omega
  rw [hsp]
  have hflag := beginPhase_flag ((i + 1) % 32) i b
  rw [h.1, h.2.1] at hflag
  have hiff := checkSync_window_iff dst i b h 0
  rcases beginPhase_cases ((i + 1) % 32) i 0 b with ⟨hf, _, hh⟩ | ⟨hf, hh, ho⟩
  · have hm : matchAt dst i := hiff.mp (hflag ▸ hf)
    refine ⟨fun _ => ⟨hf, by simpa using hh⟩, fun hn => absurd hm hn⟩
  · have hm : ¬ matchAt dst i := by
      intro hm
      have := hiff.mpr hm
      rw [← hflag, hf] at this
      cases this
    refine ⟨fun hm' => absurd hm' hm, fun _ => ⟨hf, ?_⟩⟩
    refine ⟨?_, ?_, ?_, ?_⟩
    · show (beginPhase ((i + 1) % 32) i 0 b).self.dst = dst
      rw [beginPhase_dst]; exact h.1
    · show maskLow (((beginPhase ((i + 1) % 32) i 0 b).demod_buf_offset : Int) + 1)
        (LEN_DEMOD_BUF_ACCESS - 1) = (i + 1) % 32
      rw [ho, h.2.1]; unfold maskLow LEN_DEMOD_BUF_ACCESS; omega
    · show (beginPhase ((i + 1) % 32) i 0 b).hit_idx = -1
      rw [hh]; exact h.2.2.1
    · intro k hk1 hk2
      show (beginPhase ((i + 1) % 32) i 0 b).self.demod_buf_access 0 (k % 32).toNat = _
      rw [beginPhase_window, h.1, h.2.1]
      exact window_after_store dst i b h k (by omega) (by omega)



theorem beginSymbols_search {D : Type} (dst : Int → Complex16) :
    ∀ (n i : Nat) (b : BeginSearch D), WindowAt dst i b →
      (∀ i0, i ≤ i0 → i0 < i + n → matchAt dst i0 →
          (∀ k, i ≤ k → k < i0 → ¬ matchAt dst k) →
          (beginSymbols n i b).unequal_flag = false ∧
          (beginSymbols n i b).hit_idx = (i0 : Int) - 31) ∧
      ((∀ k, i ≤ k → k < i + n → ¬ matchAt dst k) →
          WindowAt dst (i + n) (beginSymbols n i b)) := by
  intro n
  induction n with
  | zero =>
    intro i b h
    refine ⟨fun i0 h1 h2 => absurd h1 (by omega), fun _ => h⟩
  | succ n ih =>
    intro i b h
    rw [beginSymbols, beginPhases_one]
    obtain ⟨hyes, hno⟩ := beginPhase_step dst i b h
    by_cases hm : matchAt dst i
    · obtain ⟨hf, hh⟩ := hyes hm
      rw [if_pos hf]
      refine ⟨?_, fun hall => absurd hm (hall i (le_refl _) (by omega))⟩
      intro i0 h1 _ _ hleast
      have e : i0 = i := by
        by_contra hne
        exact hleast i (le_refl _) (by omega) hm
      subst e
      exact ⟨hf, hh⟩
    · obtain ⟨hf, hw⟩ := hno hm
      rw [if_neg (by simp [hf])]
      obtain ⟨ih1, ih2⟩ := ih (i + 1) _ hw
      refine ⟨?_, ?_⟩
      · intro i0 h1 h2 hm0 hleast
        have hne : i0 ≠ i := fun e => hm (e ▸ hm0)
        exact ih1 i0 (by omega) (by omega) hm0 (fun k hk1 hk2 => hleast k (by omega) hk2)
      · intro hall
        have := ih2 (fun k hk1 hk2 => hall k (by omega) (by omega))
        rw [show i + (n + 1) = i + 1 + n by omega]
        exact this

theorem beginInit_window {D : Type} (s : FSKRxProcessor D) : WindowAt s.dst 0 (beginInit s) := by
  refine ⟨rfl, rfl, rfl, ?_⟩
  intro k _ hk
  unfold streamBit
  rw [if_neg (by omega)]
  rfl

/-- The Begin search, characterised: with a first position `i0` at which the
window spells the sync word, the search stops there with `hit_idx = i0 - 31`;
with no such position in the buffer it ends with `hit_idx = -1` and the window
holding the bits of the last 32 symbols. -/
theorem beginSearch_spec {D : Type} (s : FSKRxProcessor D) :
    (∀ i0, i0 < 512 → matchAt s.dst i0 → (∀ k, k < i0 → ¬ matchAt s.dst k) →
        (beginSearch s).unequal_flag = false ∧ (beginSearch s).hit_idx = (i0 : Int) - 31) ∧
    ((∀ k, k < 512 → ¬ matchAt s.dst k) →
        (beginSearch s).hit_idx = -1 ∧
        ∀ k, 480 ≤ k → k < 512 →
          (beginSearch s).self.demod_buf_access 0 (k % 32) = symbolBit s.dst k) := by
  obtain ⟨h1, h2⟩ := beginSymbols_search s.dst 512 0 (beginInit s) (beginInit_window s)
  have e : beginSearch s = beginSymbols 512 0 (beginInit s) := rfl
  rw [e]
  refine ⟨?_, ?_⟩
  · intro i0 hi hm hleast
    exact h1 i0 (Nat.zero_le _) (by omega) hm (fun k _ hk => hleast k hk)
  · intro hall
    obtain ⟨_, _, hh, hw⟩ := h2 (fun k _ hk => hall k (by omega))
    refine ⟨hh, ?_⟩
    intro k hk1 hk2
    have := hw (k : Int) (by omega) (by omega)
    have e2 : ((k : Int) % 32).toNat = k % 32 := by omega
    rw [e2] at this
    rw [this]
    unfold streamBit
    rw [if_pos (by omega), Int.toNat_ofNat]

theorem handleBeginState_parseState {D : Type} (s : FSKRxProcessor D)
    (hb : s.parseState = Parse_State.Parse_State_Begin) :
    (handleBeginState s).parseState = Parse_State.Parse_State_Begin := by
  by_cases h : (beginSearch s).hit_idx = -1
  · rw [handleBeginState_miss s h, beginSearch_parseState, hb]
  · rw [handleBeginState_hit s h]; rfl

theorem execute_from_begin {D : Type} (E : Externals D) (s : FSKRxProcessor D)
    (buffer : buffer_c8_t) (hc : s.configured = true)
    (hb : s.parseState = Parse_State.Parse_State_Begin) :
    execute E s buffer = handleBeginState (executePrologue E s buffer) := by
  have h0 : (executePrologue E s buffer).parseState = Parse_State.Parse_State_Begin := hb
  have h1 := handleBeginState_parseState (executePrologue E s buffer) h0
  unfold execute
  simp [hc, h0, h1]

theorem extractFrame_refl {D : Type} (s : FSKRxProcessor D) : ExtractFrame s s := by
  unfold ExtractFrame; rfl

theorem extractFrame_trans {D : Type} {s t u : FSKRxProcessor D}
    (h1 : ExtractFrame s t) (h2 : ExtractFrame t u) : ExtractFrame s u := by
  unfold ExtractFrame at *
  rw [h2, h1]

theorem ExtractFrame.set_rb_buf {D : Type} (s : FSKRxProcessor D) (r : Nat → Nat) :
    ExtractFrame s { s with rb_buf := r } := by
  unfold ExtractFrame; rfl

theorem ExtractFrame.set_packet_index {D : Type} (s : FSKRxProcessor D) (p : Nat) :
    ExtractFrame s { s with packet_index := p } := by
  unfold ExtractFrame; rfl

theorem headerBits_frame {D : Type} :
    ∀ (n j : Nat) (s : FSKRxProcessor D), ExtractFrame s (headerBits n j s) := by
  intro n
  induction n with
  | zero => intro j s; exact extractFrame_refl s
  | succ n ih =>
    intro j s
    rw [headerBits]
    refine extractFrame_trans ?_ (ih _ _)
    unfold ExtractFrame; rfl

theorem headerBytes_frame {D : Type} :
    ∀ (n : Nat) (s : FSKRxProcessor D), ExtractFrame s (headerBytes n s) := by
  intro n
  induction n with
  | zero => intro s; exact extractFrame_refl s
  | succ n ih =>
    intro s
    rw [headerBytes]
    exact extractFrame_trans
      (extractFrame_trans (ExtractFrame.set_rb_buf s _) (headerBits_frame 8 0 _))
      (extractFrame_trans (ExtractFrame.set_packet_index _ _) (ih _))

theorem payloadBits_frame {D : Type} :
    ∀ (n j : Nat) (s : FSKRxProcessor D), ExtractFrame s (payloadBits n j s) := by
  intro n
  induction n with
  | zero => intro j s; exact extractFrame_refl s
  | succ n ih =>
    intro j s
    rw [payloadBits]
    refine extractFrame_trans ?_ (ih _ _)
    unfold ExtractFrame; rfl

theorem payloadBytes_frame {D : Type} :
    ∀ (n : Nat) (s : FSKRxProcessor D), ExtractFrame s (payloadBytes n s) := by
  intro n
  induction n with
  | zero => intro s; exact extractFrame_refl s
  | succ n ih =>
    intro s
    rw [payloadBytes]
    exact extractFrame_trans
      (extractFrame_trans (ExtractFrame.set_rb_buf s _) (payloadBits_frame 8 0 _))
      (extractFrame_trans (ExtractFrame.set_packet_index _ _) (ih _))

theorem copyData_spec (rb : Nat → Nat) :
    ∀ (n i st : Nat) (data : Nat → Nat), st + n ≤ 256 →
      (copyData rb n i st data).2 = i + n ∧
      ∀ j, (copyData rb n i st data).1 j =
        if i ≤ j ∧ j < i + n then rb (st + (j - i)) else data j := by
  intro n
  induction n with
  | zero =>
    intro i st data _
    refine ⟨rfl, fun j => ?_⟩
    have c : ¬ (i ≤ j ∧ j < i + 0) := by omega
    rw [if_neg c]; rfl
  | succ n ih =>
    intro i st data h
    rw [copyData]
    by_cases hn : n = 0
    · subst hn
      refine ⟨rfl, fun j => ?_⟩
      show store data i (rb st) j = _
      unfold store
      by_cases hj : j = i
      · subst hj
        rw [if_pos rfl, if_pos (by omega)]; simp
      · rw [if_neg hj, if_neg (by omega)]
    · have e : (st + 1) % 256 = st + 1 := Nat.mod_eq_of_lt (by omega)
      rw [e]
      obtain ⟨h1, h2⟩ := ih (i + 1) (st + 1) (store data i (rb st)) (by omega)
      refine ⟨by rw [h1]; omega, fun j => ?_⟩
      rw [h2 j]
      by_cases hj : j = i
      · subst hj
        rw [if_neg (by omega), if_pos (by omega)]
        unfold store; simp
      · by_cases hr : i + 1 ≤ j ∧ j < i + 1 + n
        · rw [if_pos hr, if_pos (by omega)]
          congr 1; omega
        · rw [if_neg hr, if_neg (by omega)]
          unfold store; rw [if_neg hj]



theorem handlePDUHeaderState_defer {D : Type} (s : FSKRxProcessor D)
    (h : s.symbols_eaten + 16 > 512) :
    handlePDUHeaderState s = { s with symbols_eaten := s.symbols_eaten + 16 } := by
  unfold handlePDUHeaderState
  dsimp only
  have e : ((8 * 2 * SAMPLE_PER_SYMBOL : Nat) : Int) = 16 := rfl
  have e2 : ((dst_buffer_count : Nat) : Int) = 512 := rfl
  rw [e, e2, if_pos h]

theorem handlePDUPayloadState_defer {D : Type} (s : FSKRxProcessor D)
    (h : s.symbols_eaten + 8 * ((s.payload_len : Int) + 3) > 512) :
    handlePDUPayloadState s
      = { s with symbols_eaten := s.symbols_eaten + 8 * ((s.payload_len : Int) + 3) } := by
  unfold handlePDUPayloadState
  dsimp only
  have e : ((8 * (s.payload_len + 3) * SAMPLE_PER_SYMBOL : Nat) : Int)
      = 8 * ((s.payload_len : Int) + 3) := by
    unfold SAMPLE_PER_SYMBOL; push_cast; ring
  have e2 : ((dst_buffer_count : Nat) : Int) = 512 := rfl
  rw [e, e2, if_pos h]

theorem payloadBytes_fields {D : Type} (n : Nat) (s : FSKRxProcessor D) :
    (payloadBytes n s).payload_len = s.payload_len ∧
    (payloadBytes n s).pdu_type = s.pdu_type ∧
    (payloadBytes n s).max_dB = s.max_dB ∧
    (payloadBytes n s).application_queue = s.application_queue ∧
    (payloadBytes n s).fskPacketData = s.fskPacketData ∧
    (payloadBytes n s).symbols_eaten = s.symbols_eaten ∧
    (payloadBytes n s).dst = s.dst := by
  have h := payloadBytes_frame n s
  unfold ExtractFrame at h
  refine ⟨?_, ?_, ?_, ?_, ?_, ?_, ?_⟩ <;> rw [h]

theorem on_data_bytes_eq (F : StringFormat) (packet : FskPacketData) :
    ∀ (n i : Nat) (str : String),
      on_data_bytes F packet n i str = str ++ dataText F packet.data i n := by
  intro n
  induction n with
  | zero => intro i str; simp [on_data_bytes, dataText]
  | succ n ih =>
    intro i str
    rw [on_data_bytes, ih, dataText, String.append_assoc]

theorem to_string_hex_length (value l : Nat) : (to_string_hex value l).length = l := by
  induction l generalizing value with
  | zero => rfl
  | succ l ih => rw [to_string_hex, String.length_append, ih]; rfl

theorem hexBytes_length (a : Nat → Nat) (n : Nat) : (hexBytes a n).length = 2 * n := by
  induction n with
  | zero => rfl
  | succ n ih => rw [hexBytes, String.length_append, ih, to_string_hex_length]; omega

theorem maxSquaredLoop_of_le (buffer : buffer_c8_t) :
    ∀ (n k m : Nat),
      (∀ j, k ≤ j → SMUAD (simd32Word buffer j) (simd32Word buffer j) ≤ m) →
      maxSquaredLoop buffer n k m = m := by
  intro n
  induction n with
  | zero => intro k m _; rfl
  | succ n ih =>
    intro k m h
    rw [maxSquaredLoop]
    rw [if_neg (by have := h k (le_refl _); omega)]
    exact ih (k + 1) m (fun j hj => h j (by omega))

theorem rawUnitQ_word (j : Nat) (hj : 1 ≤ j) : simd32Word rawUnitQ j = 0 := by
  unfold simd32Word rawUnitQ
  have h1 : ¬ (2 * j = 0) := by omega
  have h2 : ¬ (2 * j + 1 = 0) := by omega
  simp [h1, h2, toUInt8]

theorem rawUnitQ_spec (n : Nat) : specMaxSquaredOf rawUnitQ (n + 1) = 1 := by
  induction n with
  | zero => decide
  | succ n ih =>
    rw [specMaxSquaredOf, ih]
    have : sampleMagSq rawUnitQ (n + 1) = 0 := by
      unfold sampleMagSq rawUnitQ
      simp
    rw [this]; rfl

theorem headerSymbolBit_cases (dst : Int → Complex16) (k : Int) :
    headerSymbolBit dst k = 0 ∨ headerSymbolBit dst k = 1 := by
  unfold headerSymbolBit headerBitDecision
  split
  · right; rfl
  · left; rfl

theorem testBit_or_bit (v b j t : Nat) (hb : b = 0 ∨ b = 1) (hv : v < 2 ^ j) (hj : j < 8) :
    ((v ||| (b <<< j)) % 256).testBit t
      = if t < j then v.testBit t else if t = j then decide (b = 1) else false := by
  have e : (256 : Nat) = 2 ^ 8 := by norm_num
  rw [e, Nat.testBit_mod_two_pow, Nat.testBit_or, Nat.testBit_shiftLeft]
  by_cases h1 : t < j
  · have : ¬ t ≥ j := by omega
    have h8 : t < 8 := by omega
    simp [h1, this, h8]
  · rw [if_neg h1]
    have hvt : v.testBit t = false := by
      apply Nat.testBit_lt_two_pow
      calc v < 2 ^ j := hv
        _ ≤ 2 ^ t := Nat.pow_le_pow_right (by decide) (by omega)
    by_cases h2 : t = j
    · subst h2
      rcases hb with hb | hb <;> subst hb <;> simp [hj, hvt]
    · rw [if_neg h2]
      have : (b.testBit (t - j)) = false := by
        apply Nat.testBit_lt_two_pow
        calc b < 2 ^ 1 := by rcases hb with hb | hb <;> subst hb <;> decide
          _ ≤ 2 ^ (t - j) := Nat.pow_le_pow_right (by decide) (by omega)
      simp [hvt, this]

theorem or_bit_lt (v b j : Nat) (hb : b = 0 ∨ b = 1) (hv : v < 2 ^ j) :
    (v ||| (b <<< j)) % 256 < 2 ^ (j + 1) := by
  apply lt_of_le_of_lt (Nat.mod_le _ _)
  apply Nat.or_lt_two_pow
  · calc v < 2 ^ j := hv
      _ ≤ 2 ^ (j + 1) := Nat.pow_le_pow_right (by decide) (by omega)
  · rw [Nat.shiftLeft_eq]
    rcases hb with hb | hb <;> subst hb
    · simp
    · rw [Nat.one_mul]; exact Nat.pow_lt_pow_right (by decide) (by omega)

theorem headerBits_succ {D : Type} (n j : Nat) (s : FSKRxProcessor D) :
    headerBits (n + 1) j s = headerBits n (j + 1) (headerStep j s) := rfl

theorem headerStep_fields {D : Type} (j : Nat) (s : FSKRxProcessor D) :
    (headerStep j s).packet_index = s.packet_index ∧
    (headerStep j s).sample_idx = s.sample_idx + 1 ∧
    (headerStep j s).dst = s.dst ∧
    (headerStep j s).rb_buf s.packet_index
      = (s.rb_buf s.packet_index ||| (headerSymbolBit s.dst s.sample_idx <<< j)) % 256 ∧
    (∀ q, q ≠ s.packet_index → (headerStep j s).rb_buf q = s.rb_buf q) := by
  refine ⟨rfl, rfl, rfl, ?_, ?_⟩
  · show store s.rb_buf s.packet_index _ s.packet_index = _
    unfold store; rw [if_pos rfl]
  · intro q hq
    show store s.rb_buf s.packet_index _ q = _
    unfold store; rw [if_neg hq]

theorem headerBits_spec {D : Type} :
    ∀ (n j : Nat) (s : FSKRxProcessor D), j + n ≤ 8 → s.rb_buf s.packet_index < 2 ^ j →
      (headerBits n j s).packet_index = s.packet_index ∧
      (headerBits n j s).sample_idx = s.sample_idx + (n : Int) ∧
      (headerBits n j s).dst = s.dst ∧
      (∀ q, q ≠ s.packet_index → (headerBits n j s).rb_buf q = s.rb_buf q) ∧
      (headerBits n j s).rb_buf s.packet_index < 2 ^ (j + n) ∧
      ∀ t, ((headerBits n j s).rb_buf s.packet_index).testBit t =
        if t < j then (s.rb_buf s.packet_index).testBit t
        else if t < j + n then
          decide (headerSymbolBit s.dst (s.sample_idx + ((t : Int) - (j : Int))) = 1)
        else false := by
  intro n
  induction n with
  | zero =>
    intro j s _ hv
    refine ⟨rfl, by simp [headerBits], rfl, fun _ _ => rfl, hv, ?_⟩
    intro t
    show (s.rb_buf s.packet_index).testBit t = _
    by_cases h : t < j
    · rw [if_pos h]
    · rw [if_neg h, if_neg (by omega)]
      apply Nat.testBit_lt_two_pow
      calc s.rb_buf s.packet_index < 2 ^ j := hv
        _ ≤ 2 ^ t := Nat.pow_le_pow_right (by decide) (by omega)
  | succ n ih =>
    intro j s hjn hv
    rw [headerBits_succ]
    have hb := headerSymbolBit_cases s.dst s.sample_idx
    obtain ⟨f1, f2, f3, f4, f5⟩ := headerStep_fields j s
    obtain ⟨i1, i2, i3, i4, i5, i6⟩ := ih (j + 1) (headerStep j s) (by omega)
      (by rw [f1, f4]; exact or_bit_lt _ _ _ hb hv)
    rw [f1] at i1 i4 i5 i6
    rw [f2] at i2 i6
    rw [f3] at i3 i6
    refine ⟨i1, ?_, i3, ?_, ?_, ?_⟩
    · rw [i2]; push_cast; ring
    · intro q hq
      rw [i4 q hq, f5 q hq]
    · rw [show j + (n + 1) = j + 1 + n by omega]
      exact i5
    · intro t
      rw [i6 t, f4, testBit_or_bit _ _ j t hb hv (by omega)]
      by_cases h1 : t < j
      · rw [if_pos (by omega), if_pos h1, if_pos h1]
      · by_cases h2 : t = j
        · subst h2
          rw [if_pos (by omega), if_neg h1, if_pos rfl, if_neg h1, if_pos (by omega)]
          simp
        · rw [if_neg (by omega), if_neg h1]
          by_cases h3 : t < j + 1 + n
          · rw [if_pos h3, if_pos (by omega)]
            have e : s.sample_idx + 1 + ((t : Int) - ((j + 1 : Nat) : Int))
                = s.sample_idx + ((t : Int) - (j : Int)) := by
              push_cast; ring
            rw [e]
          · rw [if_neg h3, if_neg (by omega)]

theorem headerBytes_succ {D : Type} (n : Nat) (s : FSKRxProcessor D) :
    headerBytes (n + 1) s = headerBytes n (headerByteStep s) := rfl

theorem headerByteStep_spec {D : Type} (s : FSKRxProcessor D) :
    (headerByteStep s).packet_index = (s.packet_index + 1) % 65536 ∧
    (headerByteStep s).sample_idx = s.sample_idx + 8 ∧
    (headerByteStep s).dst = s.dst ∧
    (∀ q, q ≠ s.packet_index → (headerByteStep s).rb_buf q = s.rb_buf q) ∧
    (headerByteStep s).rb_buf s.packet_index < 256 ∧
    ∀ t : Nat, t < 8 →
      (headerByteStep s).rb_buf s.packet_index / 2 ^ t % 2
        = headerSymbolBit s.dst (s.sample_idx + (t : Int)) := by
  have hz : store s.rb_buf s.packet_index 0 s.packet_index = 0 := by
    unfold store; rw [if_pos rfl]
  obtain ⟨i1, i2, i3, i4, i5, i6⟩ := headerBits_spec 8 0
    { s with rb_buf := store s.rb_buf s.packet_index 0 } (by omega)
    (by show store s.rb_buf s.packet_index 0 s.packet_index < 2 ^ 0
        rw [hz]; decide)
  refine ⟨?_, i2, i3, ?_, i5, ?_⟩
  · show ((headerBits 8 0 _).packet_index + 1) % 65536 = _
    rw [i1]
  · intro q hq
    show (headerBits 8 0 _).rb_buf q = _
    rw [i4 q hq]
    show store s.rb_buf s.packet_index 0 q = _
    unfold store; rw [if_neg hq]
  · intro t ht
    show (headerBits 8 0 _).rb_buf s.packet_index / 2 ^ t % 2 = _
    rw [← Nat.toNat_testBit]
    have := i6 t
    rw [show ((headerBits 8 0 { s with rb_buf := store s.rb_buf s.packet_index 0 }).rb_buf
      s.packet_index).testBit t = _ from this, if_neg (by omega), if_pos (by omega)]
    show (decide (headerSymbolBit s.dst (s.sample_idx + ((t : Int) - ((0 : Nat) : Int))) = 1)).toNat
      = _
    have e : s.sample_idx + ((t : Int) - ((0 : Nat) : Int)) = s.sample_idx + (t : Int) := by
      push_cast; ring
    rw [e]
    rcases headerSymbolBit_cases s.dst (s.sample_idx + (t : Int)) with h | h <;> rw [h] <;> rfl

theorem fillData_spec :
    ∀ (n i : Nat) (data : Nat → Nat) (j : Nat),
      fillData data n i j = if i ≤ j ∧ j < i + n then 1 else data j := by
  intro n
  induction n with
  | zero =>
    intro i data j
    rw [if_neg (by omega)]; rfl
  | succ n ih =>
    intro i data j
    rw [fillData, ih]
    by_cases hj : j = i
    · subst hj
      rw [if_neg (by omega), if_pos (by omega)]
      unfold store; rw [if_pos rfl]
    · by_cases hr : i + 1 ≤ j ∧ j < i + 1 + n
      · rw [if_pos hr, if_pos (by omega)]
      · rw [if_neg hr, if_neg (by omega)]
        unfold store; rw [if_neg hj]

theorem checkSyncLoop_mismatch (f : Nat) (w : Nat → Nat) :
    ∀ (n q k sb m : Nat), q + n ≤ 32 → k < 32 → m < n →
      (∀ t, t < m → w ((k + t) % 32) = f / 2 ^ (q + t) % 2) →
      w ((k + m) % 32) ≠ f / 2 ^ (q + m) % 2 →
      (checkSyncLoop f w n q k sb).1 = true ∧
      ∀ j, (checkSyncLoop f w n q k sb).2.testBit j =
        if q ≤ j ∧ j < q + m then f.testBit j
        else if m = 0 then sb.testBit j else (decide (j < 32) && sb.testBit j) := by
  intro n
  induction n with
  | zero => intro q k sb m _ _ hm; omega
  | succ n ih =>
    intro q k sb m hq hk hm hmatch hmis
    rw [checkSyncLoop, getBitAtIndex_ofNat _ _ (by omega), maskLow_succ]
    rcases m with _ | m
    · have h0 : w k ≠ f / 2 ^ q % 2 := by
        simpa [Nat.mod_eq_of_lt hk] using hmis
      rw [if_pos h0]
      refine ⟨rfl, fun j => ?_⟩
      have c : ¬ (q ≤ j ∧ j < q + 0) := by omega
      rw [if_neg c, if_pos rfl]
    · have h0 : w k = f / 2 ^ q % 2 := by
        simpa [Nat.mod_eq_of_lt hk] using hmatch 0 (by omega)
      rw [if_neg (by simpa using h0)]
      obtain ⟨i1, i2⟩ := ih (q + 1) ((k + 1) % 32)
        ((sb &&& (0xFFFFFFFF ^^^ ((1 <<< q) % 4294967296)))
          ||| ((w k <<< q) % 4294967296)) m (by omega) (Nat.mod_lt _ (by decide)) (by omega)
        (fun t ht => by
          have e : ((k + 1) % 32 + t) % 32 = (k + (t + 1)) % 32 := by omega
          rw [e, hmatch (t + 1) (by omega)]
          congr 3; omega)
        (by
          have e : ((k + 1) % 32 + m) % 32 = (k + (m + 1)) % 32 := by omega
          rw [e]
          have e2 : q + 1 + m = q + (m + 1) := by omega
          rw [e2]
          exact hmis)
      refine ⟨i1, fun j => ?_⟩
      rw [i2 j, h0]
      simp only [testBit_syncByte_step sb f q _ (show q < 32 by omega)]
      by_cases hj : j = q
      · subst hj
        have c1 : ¬ (j + 1 ≤ j ∧ j < j + 1 + m) := by omega
        have c2 : (j ≤ j ∧ j < j + (m + 1)) := by omega
        have c3 : j < 32 := by omega
        simp [c1, c2, c3]
      · by_cases hr : q + 1 ≤ j ∧ j < q + 1 + m
        · have c2 : (q ≤ j ∧ j < q + (m + 1)) := by omega
          simp [hr, c2]
        · have c2 : ¬ (q ≤ j ∧ j < q + (m + 1)) := by omega
          simp only [if_neg hr, if_neg c2, if_neg hj, if_neg (Nat.succ_ne_zero m)]
          by_cases hm0 : m = 0
          · simp [hm0]
          · simp [hm0]

theorem checkSync_first_mismatch (f : Nat) (w : Nat → Nat) (k p : Nat) (hk : k < 32)
    (hp : p < 32) (hmatch : ∀ t, t < p → w ((k + t) % 32) = f / 2 ^ t % 2)
    (hmis : w ((k + p) % 32) ≠ f / 2 ^ p % 2) :
    checkSync f w k 0 = (true, f % 2 ^ p) := by
  obtain ⟨h1, h2⟩ := checkSyncLoop_mismatch f w 32 0 k 0 p (by omega) hk hp
    (fun t ht => by rw [Nat.zero_add]; exact hmatch t ht)
    (by rw [Nat.zero_add]; exact hmis)
  have e : checkSync f w k 0 = checkSyncLoop f w 32 0 k 0 := rfl
  rw [e]
  apply Prod.ext
  · exact h1
  · apply Nat.eq_of_testBit_eq
    intro j
    rw [h2 j, Nat.testBit_mod_two_pow]
    by_cases hj : j < p
    · simp [hj]
    · simp [hj]

theorem applyCall_keeps_begin {D : Type} (E : Externals D) (s : FSKRxProcessor D) (c : Call)
    (hb : s.parseState = Parse_State.Parse_State_Begin) :
    (applyCall E s c).parseState = Parse_State.Parse_State_Begin := by
  cases c with
  | message m =>
    cases m with
    | FSKRxConfigure deviation => exact hb
    | other id => exact hb
  | execute buffer =>
    show (execute E s buffer).parseState = _
    by_cases hc : s.configured = true
    · rw [execute_from_begin E s buffer hc hb]
      exact handleBeginState_parseState _ hb
    · have hc' : s.configured = false := by simpa using hc
      unfold execute
      rw [if_pos hc']
      exact hb

theorem runCalls_keeps_begin {D : Type} (E : Externals D) :
    ∀ (calls : List Call) (s : FSKRxProcessor D),
      s.parseState = Parse_State.Parse_State_Begin →
      (runCalls E s calls).parseState = Parse_State.Parse_State_Begin := by
  intro calls
  induction calls with
  | nil => intro s hb; exact hb
  | cons c cs ih =>
    intro s hb
    show (runCalls E (applyCall E s c) cs).parseState = _
    exact ih _ (applyCall_keeps_begin E s c hb)

theorem no_match_before_30 (dst : Int → Complex16) (i : Nat) (hi : i < 30) :
    ¬ matchAt dst i := by
  intro h
  have h1 := h 1 (by decide)
  unfold streamBit at h1
  rw [if_neg (by omega)] at h1
  revert h1
  decide

theorem beginSearch_cases {D : Type} (s : FSKRxProcessor D) :
    ((∀ k, k < 512 → ¬ matchAt s.dst k) ∧ (beginSearch s).hit_idx = -1) ∨
    (∃ i0, 30 ≤ i0 ∧ i0 < 512 ∧ matchAt s.dst i0 ∧ (∀ k, k < i0 → ¬ matchAt s.dst k) ∧
      (beginSearch s).unequal_flag = false ∧ (beginSearch s).hit_idx = (i0 : Int) - 31) := by
  obtain ⟨h1, h2⟩ := beginSearch_spec s
  by_cases hex : ∃ k, k < 512 ∧ matchAt s.dst k
  · right
    classical
    have hm := Nat.find_spec hex
    have hleast : ∀ k, k < Nat.find hex → ¬ matchAt s.dst k := by
      intro k hk hmk
      exact Nat.find_min hex hk ⟨by omega, hmk⟩
    have h30 : 30 ≤ Nat.find hex := by
      by_contra hlt
      exact no_match_before_30 s.dst _ (by omega) hm.2
    obtain ⟨hf, hh⟩ := h1 _ hm.1 hm.2 hleast
    exact ⟨Nat.find hex, h30, hm.1, hm.2, hleast, hf, hh⟩
  · left
    have hall : ∀ k, k < 512 → ¬ matchAt s.dst k := fun k hk hmk => hex ⟨k, hk, hmk⟩
    exact ⟨hall, (h2 hall).1⟩

theorem beginHit_lengths {D : Type} (t : FSKRxProcessor D) (hit_idx : Int) :
    (beginHit t hit_idx).payload_len = t.payload_len ∧
    (beginHit t hit_idx).pdu_type = t.pdu_type := ⟨rfl, rfl⟩

theorem handleBeginState_lengths {D : Type} (s : FSKRxProcessor D) :
    (handleBeginState s).payload_len = s.payload_len ∧
    (handleBeginState s).pdu_type = s.pdu_type := by
  have hf := beginSearch_frame s
  unfold SearchFrame at hf
  have h1 : (beginSearch s).self.payload_len = s.payload_len := by rw [hf]
  have h2 : (beginSearch s).self.pdu_type = s.pdu_type := by rw [hf]
  by_cases h : (beginSearch s).hit_idx = -1
  · rw [handleBeginState_miss s h]; exact ⟨h1, h2⟩
  · rw [handleBeginState_hit s h, (beginHit_lengths _ _).1, (beginHit_lengths _ _).2]
    exact ⟨h1, h2⟩

theorem headerBytes_fields {D : Type} (n : Nat) (s : FSKRxProcessor D) :
    (headerBytes n s).payload_len = s.payload_len ∧
    (headerBytes n s).pdu_type = s.pdu_type := by
  have h := headerBytes_frame n s
  unfold ExtractFrame at h
  refine ⟨?_, ?_⟩ <;> rw [h]

theorem handlePDUHeaderState_lengths {D : Type} (s : FSKRxProcessor D) :
    (handlePDUHeaderState s).payload_len = s.payload_len ∧
    (handlePDUHeaderState s).pdu_type = s.pdu_type := by
  obtain ⟨f1, f2⟩ := headerBytes_fields 2
    { s with
      symbols_eaten := s.symbols_eaten + ((8 * 2 * SAMPLE_PER_SYMBOL : Nat) : Int)
      sample_idx := s.symbols_eaten + ((8 * 2 * SAMPLE_PER_SYMBOL : Nat) : Int)
        - ((8 * 2 * SAMPLE_PER_SYMBOL : Nat) : Int)
      packet_index := 0 }
  unfold handlePDUHeaderState
  dsimp only
  split
  · exact ⟨rfl, rfl⟩
  · exact ⟨f1, f2⟩

theorem handlePDUPayloadState_lengths {D : Type} (s : FSKRxProcessor D) :
    (handlePDUPayloadState s).payload_len = s.payload_len ∧
    (handlePDUPayloadState s).pdu_type = s.pdu_type := by
  obtain ⟨f1, f2, _⟩ := payloadBytes_fields (s.payload_len + 3)
    { s with
      symbols_eaten :=
        s.symbols_eaten + ((8 * (s.payload_len + 3) * SAMPLE_PER_SYMBOL : Nat) : Int) }
  unfold handlePDUPayloadState
  dsimp only
  split
  · exact ⟨rfl, rfl⟩
  · exact ⟨f1, f2⟩

theorem execute_lengths {D : Type} (E : Externals D) (s : FSKRxProcessor D)
    (buffer : buffer_c8_t) :
    (execute E s buffer).payload_len = s.payload_len ∧
    (execute E s buffer).pdu_type = s.pdu_type := by
  unfold execute
  split
  · exact ⟨rfl, rfl⟩
  · dsimp only
    have p0 : (executePrologue E s buffer).payload_len = s.payload_len ∧
        (executePrologue E s buffer).pdu_type = s.pdu_type := ⟨rfl, rfl⟩
    have p1 : ∀ t : FSKRxProcessor D,
        (if t.parseState = Parse_State.Parse_State_Begin then handleBeginState t else t).payload_len
          = t.payload_len ∧
        (if t.parseState = Parse_State.Parse_State_Begin then handleBeginState t else t).pdu_type
          = t.pdu_type := by
      intro t; split
      · exact handleBeginState_lengths t
      · exact ⟨rfl, rfl⟩
    have p2 : ∀ t : FSKRxProcessor D,
        (if t.parseState = Parse_State.Parse_State_PDU_Header then handlePDUHeaderState t
          else t).payload_len = t.payload_len ∧
        (if t.parseState = Parse_State.Parse_State_PDU_Header then handlePDUHeaderState t
          else t).pdu_type = t.pdu_type := by
      intro t; split
      · exact handlePDUHeaderState_lengths t
      · exact ⟨rfl, rfl⟩
    have p3 : ∀ t : FSKRxProcessor D,
        (if t.parseState = Parse_State.Parse_State_PDU_Payload then handlePDUPayloadState t
          else t).payload_len = t.payload_len ∧
        (if t.parseState = Parse_State.Parse_State_PDU_Payload then handlePDUPayloadState t
          else t).pdu_type = t.pdu_type := by
      intro t; split
      · exact handlePDUPayloadState_lengths t
      · exact ⟨rfl, rfl⟩
    constructor
    · rw [(p3 _).1, (p2 _).1, (p1 _).1, p0.1]
    · rw [(p3 _).2, (p2 _).2, (p1 _).2, p0.2]

theorem applyCall_lengths {D : Type} (E : Externals D) (s : FSKRxProcessor D) (c : Call) :
    (applyCall E s c).payload_len = s.payload_len ∧
    (applyCall E s c).pdu_type = s.pdu_type := by
  cases c with
  | message m =>
    cases m with
    | FSKRxConfigure deviation => exact ⟨rfl, rfl⟩
    | other id => exact ⟨rfl, rfl⟩
  | execute buffer => exact execute_lengths E s buffer

theorem runCalls_lengths {D : Type} (E : Externals D) :
    ∀ (calls : List Call) (s : FSKRxProcessor D),
      (runCalls E s calls).payload_len = s.payload_len ∧
      (runCalls E s calls).pdu_type = s.pdu_type := by
  intro calls
  induction calls with
  | nil => intro s; exact ⟨rfl, rfl⟩
  | cons c cs ih =>
    intro s
    show (runCalls E (applyCall E s c) cs).payload_len = _ ∧
      (runCalls E (applyCall E s c) cs).pdu_type = _
    obtain ⟨a1, a2⟩ := ih (applyCall E s c)
    obtain ⟨b1, b2⟩ := applyCall_lengths E s c
    exact ⟨a1.trans b1, a2.trans b2⟩

/-! ## The claims -/

/-- C1: `checkSync` returns false (a match) exactly when, for every `p` in 0..31,
the window slot at index `(startIndex + p) mod 32` equals bit `p` of the pattern;
in particular a window that agrees in 31 positions and differs in one yields true
(no match). `startIndex` is a slot index of the 32-slot window. -/
theorem checkSync_reports_match_iff (findSync : Nat) (w : Nat → Nat)
    (startIndex syncByte : Nat) (hs : startIndex < 32) :
    ((checkSync findSync w startIndex syncByte).1 = false ↔
        ∀ p, p < 32 → w ((startIndex + p) % 32) = findSync / 2 ^ p % 2) ∧
    (∀ q, q < 32 →
        (∀ p, p < 32 → p ≠ q → w ((startIndex + p) % 32) = findSync / 2 ^ p % 2) →
        w ((startIndex + q) % 32) ≠ findSync / 2 ^ q % 2 →
        (checkSync findSync w startIndex syncByte).1 = true) := by
  have key := checkSyncLoop_false_iff findSync w 32 0 startIndex syncByte (by omega) hs
  simp only [Nat.zero_add] at key
  refine ⟨key, ?_⟩
  intro q hq _ hne
  cases hc : (checkSync findSync w startIndex syncByte).1 with
  | true => rfl
  | false => exact absurd ((key.mp hc) q hq) hne

/-- Witness for C1: the window holding the sync word rotated by five slots,
compared from slot 5. -/
theorem checkSync_reports_match_iff_witness :
    (5 : Nat) < 32 ∧
    (((checkSync SYNC_BYTE_BLE (fun k => SYNC_BYTE_BLE / 2 ^ ((k + 27) % 32) % 2) 5 0).1 = false ↔
        ∀ p, p < 32 →
          (fun k => SYNC_BYTE_BLE / 2 ^ ((k + 27) % 32) % 2) ((5 + p) % 32)
            = SYNC_BYTE_BLE / 2 ^ p % 2) ∧
    (∀ q, q < 32 →
        (∀ p, p < 32 → p ≠ q →
          (fun k => SYNC_BYTE_BLE / 2 ^ ((k + 27) % 32) % 2) ((5 + p) % 32)
            = SYNC_BYTE_BLE / 2 ^ p % 2) →
        (fun k => SYNC_BYTE_BLE / 2 ^ ((k + 27) % 32) % 2) ((5 + q) % 32)
          ≠ SYNC_BYTE_BLE / 2 ^ q % 2 →
        (checkSync SYNC_BYTE_BLE (fun k => SYNC_BYTE_BLE / 2 ^ ((k + 27) % 32) % 2) 5 0).1
          = true)) :=
  ⟨by decide,
    checkSync_reports_match_iff SYNC_BYTE_BLE
      (fun k => SYNC_BYTE_BLE / 2 ^ ((k + 27) % 32) % 2) 5 0 (by decide)⟩

set_option maxRecDepth 100000 in
/-- C2 (failing input): on a buffer whose symbols 0..30 carry bits 1..31 of the
sync word and whose symbols 31..62 carry the whole sync word, the window equals
the pattern once symbol 30 is inserted, and again at symbol 62. The search stops
at symbol 30 (`unequal_flag` false, write position 30, the window compared from
slot 31 matching, the pattern captured in `syncByte`, samples read up to index
31), but the hit index it computes is -1, the value that means no hit: the
handler takes the return of line 99 and records nothing (no packet pushed,
`symbols_eaten` still 0). -/
theorem begin_search_drops_match_at_symbol_30 :
    matchAt syncCutShort.dst 30 ∧
    matchAt syncCutShort.dst 62 ∧
    (∀ p : Nat, p < 32 → symbolBit syncCutShort.dst (31 + p) = SYNC_BYTE_BLE / 2 ^ p % 2) ∧
    (beginSearch syncCutShort).unequal_flag = false ∧
    (beginSearch syncCutShort).demod_buf_offset = 30 ∧
    (checkSync SYNC_BYTE_BLE ((beginSearch syncCutShort).self.demod_buf_access 0) 31 0).1
      = false ∧
    (beginSearch syncCutShort).self.syncByte = SYNC_BYTE_BLE ∧
    (beginSearch syncCutShort).self.sample_reads.head? = some 31 ∧
    (beginSearch syncCutShort).hit_idx = -1 ∧
    (handleBeginState syncCutShort).application_queue.length = 0 ∧
    (handleBeginState syncCutShort).symbols_eaten = 0 := by
  decide

set_option maxRecDepth 100000 in
/-- C3 (counterexample): on a buffer whose symbols 0..31 carry the sync word the
search reports a hit (index 0), and the parse state after Begin-state handling
is Begin, not Header; it is Begin after the whole `execute` too, with the one
packet of the Begin handler in the queue. -/
theorem begin_hit_does_not_enter_header :
    (beginSearch syncAtStart).hit_idx = 0 ∧
    (handleBeginState syncAtStart).parseState ≠ Parse_State.Parse_State_PDU_Header ∧
    (handleBeginState syncAtStart).parseState = Parse_State.Parse_State_Begin ∧
    (execute passThrough ready (rawOf (samplesOfBits (syncBitsFrom 0) 0))).parseState
      = Parse_State.Parse_State_Begin ∧
    (execute passThrough ready
      (rawOf (samplesOfBits (syncBitsFrom 0) 0))).application_queue.length = 1 := by
  decide

/-- C3 (amended): for a configured processor in the Begin state and every buffer
in whose decimated samples the Begin search finds the sync word, the parse state
after Begin-state handling is Begin, and `execute` is exactly that Begin-state
handling: neither the Header nor the Payload handler runs, and the parse state
after the buffer is Begin. -/
theorem begin_hit_returns_to_begin {D : Type} (E : Externals D) (s : FSKRxProcessor D)
    (buffer : buffer_c8_t) (hc : s.configured = true)
    (hb : s.parseState = Parse_State.Parse_State_Begin)
    (hhit : (beginSearch (executePrologue E s buffer)).hit_idx ≠ -1) :
    (handleBeginState (executePrologue E s buffer)).parseState
        = Parse_State.Parse_State_Begin ∧
    execute E s buffer
      = beginHit (beginSearch (executePrologue E s buffer)).self
          (beginSearch (executePrologue E s buffer)).hit_idx ∧
    (execute E s buffer).parseState = Parse_State.Parse_State_Begin := by
  have h1 : (handleBeginState (executePrologue E s buffer)).parseState
      = Parse_State.Parse_State_Begin := by
    rw [handleBeginState_hit _ hhit]; rfl
  have h2 := execute_from_begin E s buffer hc hb
  refine ⟨h1, ?_, h2 ▸ h1⟩
  rw [h2, handleBeginState_hit _ hhit]

set_option maxRecDepth 100000 in
/-- Witness for C3 (amended): the configured processor as constructed, on the
buffer whose symbols 0..31 carry the sync word. -/
theorem begin_hit_returns_to_begin_witness :
    ready.configured = true ∧
    ready.parseState = Parse_State.Parse_State_Begin ∧
    (beginSearch (executePrologue passThrough ready
        (rawOf (samplesOfBits (syncBitsFrom 0) 0)))).hit_idx ≠ -1 ∧
    (handleBeginState (executePrologue passThrough ready
        (rawOf (samplesOfBits (syncBitsFrom 0) 0)))).parseState
        = Parse_State.Parse_State_Begin ∧
    execute passThrough ready (rawOf (samplesOfBits (syncBitsFrom 0) 0))
      = beginHit
          (beginSearch (executePrologue passThrough ready
            (rawOf (samplesOfBits (syncBitsFrom 0) 0)))).self
          (beginSearch (executePrologue passThrough ready
            (rawOf (samplesOfBits (syncBitsFrom 0) 0)))).hit_idx ∧
    (execute passThrough ready (rawOf (samplesOfBits (syncBitsFrom 0) 0))).parseState
      = Parse_State.Parse_State_Begin :=
  ⟨by decide, by decide, by decide,
    begin_hit_returns_to_begin passThrough ready (rawOf (samplesOfBits (syncBitsFrom 0) 0))
      (by decide) (by decide) (by decide)⟩

set_option maxRecDepth 100000 in
/-- C4 (counterexample): Begin-state handling of a buffer carrying the sync word
pushes a packet: the queue, empty before, holds one packet after. -/
theorem begin_state_pushes_packet :
    syncAtStart.application_queue.length = 0 ∧
    (handleBeginState syncAtStart).application_queue.length = 1 := by
  decide

/-- C4 (amended): the Header handler never pushes a packet; the Begin handler pushes
exactly one packet, the one it has just filled, when its search leaves a hit index
other than -1, and none otherwise; the Payload handler pushes exactly one packet when
it completes and none when it defers. -/
theorem packet_push_sites {D : Type} (s : FSKRxProcessor D) :
    (handlePDUHeaderState s).application_queue = s.application_queue ∧
    (handleBeginState s).application_queue =
      (if (beginSearch s).hit_idx = -1 then s.application_queue
       else s.application_queue ++ [(handleBeginState s).fskPacketData]) ∧
    (handlePDUPayloadState s).application_queue =
      (if s.symbols_eaten + 8 * ((s.payload_len : Int) + 3) > 512 then s.application_queue
       else s.application_queue ++ [(handlePDUPayloadState s).fskPacketData]) := by
  refine ⟨?_, ?_, ?_⟩
  · unfold handlePDUHeaderState
    dsimp only
    split
    · rfl
    · exact headerBytes_queue _ _
  · by_cases h : (beginSearch s).hit_idx = -1
    · rw [if_pos h, handleBeginState_miss s h, beginSearch_queue]
    · rw [if_neg h, handleBeginState_hit s h]
      unfold beginHit
      dsimp only
      rw [beginSearch_hit_syncByte s h, beginSearch_queue, if_pos (by decide)]
  · have e : ((8 * (s.payload_len + 3) * SAMPLE_PER_SYMBOL : Nat) : Int)
        = 8 * ((s.payload_len : Int) + 3) := by
      unfold SAMPLE_PER_SYMBOL; push_cast; ring
    unfold handlePDUPayloadState
    dsimp only
    rw [e]
    have e2 : ((dst_buffer_count : Nat) : Int) = 512 := rfl
    rw [e2]
    split
    · rfl
    · dsimp only
      rw [payloadBytes_queue]

set_option maxRecDepth 100000 in
/-- C5 (counterexample): two consecutive buffers through `execute`. The first,
whose symbol 510 decides to 1, yields no match and leaves that bit in slot 30 of
the window; at the start of the Begin search on the second buffer slot 30 holds
0: the bits decided at the end of the first buffer are gone. -/
theorem window_lost_between_buffers :
    (beginSearch (executePrologue passThrough ready rawLateBit)).hit_idx = -1 ∧
    (execute passThrough ready rawLateBit).parseState = Parse_State.Parse_State_Begin ∧
    symbolBit (executePrologue passThrough ready rawLateBit).dst 510 = 1 ∧
    (execute passThrough ready rawLateBit).demod_buf_access 0 (510 % 32) = 1 ∧
    (beginInit (executePrologue passThrough (execute passThrough ready rawLateBit)
        (rawOf []))).self.demod_buf_access 0 (510 % 32) = 0 := by
  decide

/-- C5 (amended): the bit window does not carry over between buffers. For a
configured processor in the Begin state and two consecutive buffers of which the
first holds no position where the window spells the sync word: after the first
buffer the parse state is Begin and the window holds, in the slot of its index
modulo 32, the bit decided for each of the last 32 symbols 480..511 of that
buffer; at the start of the Begin search on the second buffer the window is all
zeros and the write position is 0, and the result of Begin-state handling of the
second buffer is the same whatever the window held on entry. -/
theorem window_cleared_at_search_start {D : Type} (E : Externals D) (s : FSKRxProcessor D)
    (first second : buffer_c8_t) (hc : s.configured = true)
    (hb : s.parseState = Parse_State.Parse_State_Begin)
    (hno : ∀ k, k < 512 → ¬ matchAt (executePrologue E s first).dst k) :
    (execute E s first).parseState = Parse_State.Parse_State_Begin ∧
    (∀ k, 480 ≤ k → k < 512 →
      (execute E s first).demod_buf_access 0 (k % 32)
        = symbolBit (executePrologue E s first).dst k) ∧
    (∀ j k, (beginInit (executePrologue E (execute E s first) second)).self.demod_buf_access
      j k = 0) ∧
    (beginInit (executePrologue E (execute E s first) second)).demod_buf_offset = 0 ∧
    (∀ w, handleBeginState
        { executePrologue E (execute E s first) second with demod_buf_access := w }
      = handleBeginState (executePrologue E (execute E s first) second)) := by
  have h2 := execute_from_begin E s first hc hb
  obtain ⟨hh, hw⟩ := (beginSearch_spec (executePrologue E s first)).2 hno
  refine ⟨?_, ?_, fun _ _ => rfl, rfl, fun _ => rfl⟩
  · rw [h2]; exact handleBeginState_parseState _ hb
  · intro k hk1 hk2
    rw [h2, handleBeginState_miss _ hh]
    exact hw k hk1 hk2

set_option maxRecDepth 100000 in
/-- Witness for C5 (amended): the configured processor as constructed, a first
buffer whose symbol 510 alone decides to 1, then a buffer of zero samples. -/
theorem window_cleared_at_search_start_witness :
    ready.configured = true ∧
    ready.parseState = Parse_State.Parse_State_Begin ∧
    (∀ k, k < 512 → ¬ matchAt (executePrologue passThrough ready rawLateBit).dst k) ∧
    (execute passThrough ready rawLateBit).parseState = Parse_State.Parse_State_Begin ∧
    (∀ k, 480 ≤ k → k < 512 →
      (execute passThrough ready rawLateBit).demod_buf_access 0 (k % 32)
        = symbolBit (executePrologue passThrough ready rawLateBit).dst k) ∧
    (∀ j k, (beginInit (executePrologue passThrough (execute passThrough ready rawLateBit)
      (rawOf []))).self.demod_buf_access j k = 0) ∧
    (beginInit (executePrologue passThrough (execute passThrough ready rawLateBit)
      (rawOf []))).demod_buf_offset = 0 ∧
    (∀ w, handleBeginState
        { executePrologue passThrough (execute passThrough ready rawLateBit) (rawOf []) with
          demod_buf_access := w }
      = handleBeginState
          (executePrologue passThrough (execute passThrough ready rawLateBit) (rawOf []))) :=
  ⟨by decide, by decide, by decide,
    window_cleared_at_search_start passThrough ready rawLateBit (rawOf [])
      (by decide) (by decide) (by decide)⟩

set_option maxRecDepth 100000 in
/-- C6 (failing input): on a buffer of 512 zero samples the Begin handler reads
`dst_buffer.p[512]`, one past the last sample (iteration `i = 511` reads
`p[i + j + 1]`); the Header handler entered with 496 symbols consumed passes its
length check and reads index 512 as well. -/
theorem handlers_read_past_buffer_end :
    quietBuffer.sample_reads.length = 0 ∧
    (512 : Int) ∈ (handleBeginState quietBuffer).sample_reads ∧
    headerAt496.sample_reads.length = 0 ∧
    (512 : Int) ∈ (handlePDUHeaderState headerAt496).sample_reads := by
  decide

/-- C7 (counterexample): a configuration message applied to a processor in the
Payload state leaves it in the Payload state, with the captured sync value still
in `syncByte`. -/
theorem configure_keeps_payload_state :
    (on_message passThrough midPayload (Message.FSKRxConfigure 38)).parseState
      ≠ Parse_State.Parse_State_Begin ∧
    (on_message passThrough midPayload (Message.FSKRxConfigure 38)).syncByte ≠ 0 := by
  decide

/-- C7 (amended): applying a configuration message changes `channel_number`, the
decimator and `configured` only; the parse state and the correlator state
(`syncByte`, the window) are what they were before. -/
theorem configure_leaves_parse_state {D : Type} (E : Externals D) (s : FSKRxProcessor D)
    (deviation : Nat) :
    on_message E s (Message.FSKRxConfigure deviation)
      = { s with
          channel_number := deviation % 256
          decim_0 := E.decim_configure s.decim_0
          configured := true } ∧
    (on_message E s (Message.FSKRxConfigure deviation)).parseState = s.parseState ∧
    (on_message E s (Message.FSKRxConfigure deviation)).syncByte = s.syncByte ∧
    (on_message E s (Message.FSKRxConfigure deviation)).demod_buf_access
      = s.demod_buf_access :=
  ⟨rfl, rfl, rfl, rfl⟩

/-- C8: while `configured` is false, `execute` is a no-op on every input buffer
(the processor state, queue of pushed packets included, is unchanged); and after
one `configure` call `configured` is true. -/
theorem execute_unconfigured_noop {D : Type} (E : Externals D) (s : FSKRxProcessor D)
    (buffer : buffer_c8_t) (deviation : Nat) (h : s.configured = false) :
    execute E s buffer = s ∧
    (configure E s deviation).configured = true ∧
    (on_message E s (Message.FSKRxConfigure deviation)).configured = true := by
  refine ⟨?_, rfl, rfl⟩
  unfold execute
  rw [if_pos h]

/-- Witness for C8: the processor as constructed, on the buffer carrying the
sync word. -/
theorem execute_unconfigured_noop_witness :
    (FSKRxProcessor.initial ()).configured = false ∧
    execute passThrough (FSKRxProcessor.initial ()) (rawOf (samplesOfBits (syncBitsFrom 0) 0))
      = FSKRxProcessor.initial () ∧
    (configure passThrough (FSKRxProcessor.initial ()) 37).configured = true ∧
    (on_message passThrough (FSKRxProcessor.initial ())
      (Message.FSKRxConfigure 37)).configured = true :=
  ⟨by decide,
    execute_unconfigured_noop passThrough (FSKRxProcessor.initial ())
      (rawOf (samplesOfBits (syncBitsFrom 0) 0)) 37 (by decide)⟩

/-- C9: for 16-bit signed sample components, the bit decision written at the
Begin-state correlator, at the Header-state byte extraction and at the
Payload-state byte extraction is one and the same function of the sample pair:
1 if `I0 * Q1 - I1 * Q0 > 0`, else 0. -/
theorem bit_decision_sites_agree (I0 Q0 I1 Q1 : Int) (h0 : isInt16 I0) (h1 : isInt16 Q0)
    (h2 : isInt16 I1) (h3 : isInt16 Q1) :
    beginBitDecision I0 Q0 I1 Q1 = specBitDecision I0 Q0 I1 Q1 ∧
    headerBitDecision I0 Q0 I1 Q1 = specBitDecision I0 Q0 I1 Q1 ∧
    payloadBitDecision I0 Q0 I1 Q1 = specBitDecision I0 Q0 I1 Q1 := by
  have e := wrapped_cross_eq I0 Q0 I1 Q1 h0 h1 h2 h3
  unfold beginBitDecision headerBitDecision payloadBitDecision specBitDecision
  rw [e]
  exact ⟨rfl, rfl, rfl⟩

/-- Witness for C9: the extreme pair (-32768, -32768), (-32768, 32767). -/
theorem bit_decision_sites_agree_witness :
    isInt16 (-32768) ∧ isInt16 32767 ∧
    beginBitDecision (-32768) (-32768) (-32768) 32767
      = specBitDecision (-32768) (-32768) (-32768) 32767 ∧
    headerBitDecision (-32768) (-32768) (-32768) 32767
      = specBitDecision (-32768) (-32768) (-32768) 32767 ∧
    payloadBitDecision (-32768) (-32768) (-32768) 32767
      = specBitDecision (-32768) (-32768) (-32768) 32767 :=
  ⟨by unfold isInt16; decide, by unfold isInt16; decide,
    bit_decision_sites_agree (-32768) (-32768) (-32768) 32767
      (by unfold isInt16; decide) (by unfold isInt16; decide)
      (by unfold isInt16; decide) (by unfold isInt16; decide)⟩

set_option maxRecDepth 100000 in
/-- C10 (counterexample): a configured processor in the Payload state with
declared length 62 never returns to Begin: whatever the decimator and whatever
the buffer, the parse state after `execute` is not Begin. -/
theorem payload_length_62_never_leaves_payload :
    payload62.configured = true ∧
    payload62.parseState = Parse_State.Parse_State_PDU_Payload ∧
    payload62.payload_len = 62 ∧
    ¬ ∃ (E : Externals Unit) (buffer : buffer_c8_t),
        (execute E payload62 buffer).parseState = Parse_State.Parse_State_Begin := by
  refine ⟨by decide, by decide, by decide, ?_⟩
  rintro ⟨E, buffer, h⟩
  have h1 : (executePrologue E payload62 buffer).payload_len = 62 := rfl
  have h2 : (executePrologue E payload62 buffer).parseState
      = Parse_State.Parse_State_PDU_Payload := rfl
  rw [execute_from_payload E payload62 buffer (by decide) (by decide),
    handlePDUPayloadState_parseState _ rfl, h1, h2, if_neg (by decide)] at h
  cases h

/-- C10 (amended): for a configured processor whose parse state is Payload,
processing any buffer by `execute` brings the parse state back to Begin when the
declared payload length is at most 61, and leaves it in Payload (the handler
defers, its 8 * (payload_len + 3) symbols exceeding the 512-sample buffer) when
the declared length is 62 or more. -/
theorem payload_returns_to_begin_iff_fits {D : Type} (E : Externals D)
    (s : FSKRxProcessor D) (buffer : buffer_c8_t) (hc : s.configured = true)
    (hp : s.parseState = Parse_State.Parse_State_PDU_Payload) :
    (execute E s buffer).parseState =
      if s.payload_len ≤ 61 then Parse_State.Parse_State_Begin
      else Parse_State.Parse_State_PDU_Payload := by
  rw [execute_from_payload E s buffer hc hp, handlePDUPayloadState_parseState _ rfl]
  have h0 : (executePrologue E s buffer).parseState
      = Parse_State.Parse_State_PDU_Payload := hp
  have h1 : (executePrologue E s buffer).payload_len = s.payload_len := rfl
  rw [h0, h1]

/-- Witness for C10 (amended): the Payload-state processor with declared length
0, on a buffer of zero samples. -/
theorem payload_returns_to_begin_iff_fits_witness :
    midPayload.configured = true ∧
    midPayload.parseState = Parse_State.Parse_State_PDU_Payload ∧
    (execute passThrough midPayload (rawOf [])).parseState =
      if midPayload.payload_len ≤ 61 then Parse_State.Parse_State_Begin
      else Parse_State.Parse_State_PDU_Payload :=
  ⟨by decide, by decide,
    payload_returns_to_begin_iff_fits passThrough midPayload (rawOf []) (by decide) (by decide)⟩

/-- C11 (counterexample): the Header handler entered with 500 symbols consumed
defers (the parse state stays Header) and returns with the symbols-consumed
counter at 516; the Payload handler with declared length 62 entered with 0
symbols consumed defers and returns with the counter at 520. -/
theorem deferral_changes_symbols_eaten :
    headerAt500.symbols_eaten = 500 ∧
    (handlePDUHeaderState headerAt500).parseState = Parse_State.Parse_State_PDU_Header ∧
    (handlePDUHeaderState headerAt500).symbols_eaten = 516 ∧
    payload62.symbols_eaten = 0 ∧
    (handlePDUPayloadState payload62).parseState = Parse_State.Parse_State_PDU_Payload ∧
    (handlePDUPayloadState payload62).symbols_eaten = 520 := by
  decide

/-- C11 (amended): when the Header handler (or the Payload handler) finds that
the symbols it needs exceed the 512-sample buffer, it returns with the parse
state, the byte buffer `rb_buf`, the write cursor `packet_index` and the sample
index unchanged, and with the symbols-consumed counter advanced by the 16
symbols of the header (by the 8 * (payload_len + 3) symbols of the payload);
no other field changes. -/
theorem deferral_keeps_all_but_symbols_eaten {D : Type} (s t : FSKRxProcessor D)
    (hs : s.symbols_eaten + 16 > 512)
    (ht : t.symbols_eaten + 8 * ((t.payload_len : Int) + 3) > 512) :
    handlePDUHeaderState s = { s with symbols_eaten := s.symbols_eaten + 16 } ∧
    (handlePDUHeaderState s).parseState = s.parseState ∧
    (handlePDUHeaderState s).rb_buf = s.rb_buf ∧
    (handlePDUHeaderState s).packet_index = s.packet_index ∧
    (handlePDUHeaderState s).sample_idx = s.sample_idx ∧
    (handlePDUHeaderState s).symbols_eaten = s.symbols_eaten + 16 ∧
    handlePDUPayloadState t
      = { t with symbols_eaten := t.symbols_eaten + 8 * ((t.payload_len : Int) + 3) } ∧
    (handlePDUPayloadState t).parseState = t.parseState ∧
    (handlePDUPayloadState t).rb_buf = t.rb_buf ∧
    (handlePDUPayloadState t).packet_index = t.packet_index ∧
    (handlePDUPayloadState t).sample_idx = t.sample_idx ∧
    (handlePDUPayloadState t).symbols_eaten
      = t.symbols_eaten + 8 * ((t.payload_len : Int) + 3) := by
  rw [handlePDUHeaderState_defer s hs, handlePDUPayloadState_defer t ht]
  exact ⟨rfl, rfl, rfl, rfl, rfl, rfl, rfl, rfl, rfl, rfl, rfl, rfl⟩

/-- Witness for C11 (amended): the Header handler entered with 500 symbols
consumed, the Payload handler with declared length 62. -/
theorem deferral_keeps_all_but_symbols_eaten_witness :
    headerAt500.symbols_eaten + 16 > 512 ∧
    payload62.symbols_eaten + 8 * ((payload62.payload_len : Int) + 3) > 512 ∧
    handlePDUHeaderState headerAt500
      = { headerAt500 with symbols_eaten := headerAt500.symbols_eaten + 16 } ∧
    (handlePDUHeaderState headerAt500).parseState = headerAt500.parseState ∧
    (handlePDUHeaderState headerAt500).rb_buf = headerAt500.rb_buf ∧
    (handlePDUHeaderState headerAt500).packet_index = headerAt500.packet_index ∧
    (handlePDUHeaderState headerAt500).sample_idx = headerAt500.sample_idx ∧
    (handlePDUHeaderState headerAt500).symbols_eaten = headerAt500.symbols_eaten + 16 ∧
    handlePDUPayloadState payload62
      = { payload62 with
          symbols_eaten := payload62.symbols_eaten + 8 * ((payload62.payload_len : Int) + 3) } ∧
    (handlePDUPayloadState payload62).parseState = payload62.parseState ∧
    (handlePDUPayloadState payload62).rb_buf = payload62.rb_buf ∧
    (handlePDUPayloadState payload62).packet_index = payload62.packet_index ∧
    (handlePDUPayloadState payload62).sample_idx = payload62.sample_idx ∧
    (handlePDUPayloadState payload62).symbols_eaten
      = payload62.symbols_eaten + 8 * ((payload62.payload_len : Int) + 3) :=
  ⟨by decide, by decide,
    deferral_keeps_all_but_symbols_eaten headerAt500 payload62 (by decide) (by decide)⟩

/-- C12: whenever the Payload handler completes (does not defer) with declared
payload length `L`, `6 ≤ L ≤ 61`, it pushes exactly one packet, the record it
has just filled: `dataLen` is `L - 6`, `data[i]` is `rb_buf[8 + i]` for every
`i < L - 6`, `deviceId[k]` is `rb_buf[7 - k]` for `k` in 0..5 (`rb_buf` as the
handler leaves it), `size` is `L`, `type` is `pdu_type`, `max_dB` is the
processor's level estimate; and the parse state is Begin. -/
theorem payload_completion_packet {D : Type} (s : FSKRxProcessor D)
    (hlo : 6 ≤ s.payload_len) (hhi : s.payload_len ≤ 61)
    (hfit : s.symbols_eaten + 8 * ((s.payload_len : Int) + 3) ≤ 512) :
    (handlePDUPayloadState s).application_queue
      = s.application_queue ++ [(handlePDUPayloadState s).fskPacketData] ∧
    (handlePDUPayloadState s).fskPacketData.dataLen = s.payload_len - 6 ∧
    (∀ i, i < s.payload_len - 6 →
      (handlePDUPayloadState s).fskPacketData.data i
        = (handlePDUPayloadState s).rb_buf (8 + i)) ∧
    (∀ k, k < 6 →
      (handlePDUPayloadState s).fskPacketData.deviceId k
        = (handlePDUPayloadState s).rb_buf (7 - k)) ∧
    (handlePDUPayloadState s).fskPacketData.size = s.payload_len ∧
    (handlePDUPayloadState s).fskPacketData.type = s.pdu_type ∧
    (handlePDUPayloadState s).fskPacketData.max_dB = s.max_dB ∧
    (handlePDUPayloadState s).parseState = Parse_State.Parse_State_Begin := by
  have e : ((8 * (s.payload_len + 3) * SAMPLE_PER_SYMBOL : Nat) : Int)
      = 8 * ((s.payload_len : Int) + 3) := by
    unfold SAMPLE_PER_SYMBOL; push_cast; ring
  have e2 : ((dst_buffer_count : Nat) : Int) = 512 := rfl
  obtain ⟨f1, f2, f3, f4, f5, _, _⟩ := payloadBytes_fields (s.payload_len + 3)
    { s with symbols_eaten := s.symbols_eaten + 8 * ((s.payload_len : Int) + 3) }
  have en : ((s.payload_len : Int) - 6).toNat = s.payload_len - 6 := by omega
  obtain ⟨c1, c2⟩ := copyData_spec
    (payloadBytes (s.payload_len + 3)
      { s with symbols_eaten := s.symbols_eaten + 8 * ((s.payload_len : Int) + 3) }).rb_buf
    (s.payload_len - 6) 0 8 s.fskPacketData.data (by omega)
  unfold handlePDUPayloadState
  dsimp only
  rw [e, e2, if_neg (by omega)]
  dsimp only
  rw [f1, f2, f3, f4, f5, en]
  refine ⟨rfl, ?_, ?_, ?_, rfl, rfl, rfl, rfl⟩
  · rw [c1]; omega
  · intro i hi
    rw [c2 i, if_pos (by omega)]
    simp
  · intro k hk
    have hk' : k = 0 ∨ k = 1 ∨ k = 2 ∨ k = 3 ∨ k = 4 ∨ k = 5 := by omega
    rcases hk' with h | h | h | h | h | h <;> subst h <;> simp [store]

/-- Witness for C12: the Payload handler on a processor with declared length
10, type 2 and level -40, entered with 0 symbols consumed. -/
theorem payload_completion_packet_witness :
    6 ≤ payload10.payload_len ∧ payload10.payload_len ≤ 61 ∧
    payload10.symbols_eaten + 8 * ((payload10.payload_len : Int) + 3) ≤ 512 ∧
    (handlePDUPayloadState payload10).application_queue
      = payload10.application_queue ++ [(handlePDUPayloadState payload10).fskPacketData] ∧
    (handlePDUPayloadState payload10).fskPacketData.dataLen = payload10.payload_len - 6 ∧
    (∀ i, i < payload10.payload_len - 6 →
      (handlePDUPayloadState payload10).fskPacketData.data i
        = (handlePDUPayloadState payload10).rb_buf (8 + i)) ∧
    (∀ k, k < 6 →
      (handlePDUPayloadState payload10).fskPacketData.deviceId k
        = (handlePDUPayloadState payload10).rb_buf (7 - k)) ∧
    (handlePDUPayloadState payload10).fskPacketData.size = payload10.payload_len ∧
    (handlePDUPayloadState payload10).fskPacketData.type = payload10.pdu_type ∧
    (handlePDUPayloadState payload10).fskPacketData.max_dB = payload10.max_dB ∧
    (handlePDUPayloadState payload10).parseState = Parse_State.Parse_State_Begin :=
  ⟨by decide, by decide, by decide,
    payload_completion_packet payload10 (by decide) (by decide) (by decide)⟩

/-- C13: for every channel number `c` of the `uint8_t` range,
`get_freq_by_channel_number` returns exactly `902075000 + 25000 * c` when `c` is
in 0..15 and the sentinel `UINT64_MAX = 2^64 - 1` when `c` is in 16..255. -/
theorem get_freq_by_channel_number_spec (c : Nat) (hc : c < 256) :
    get_freq_by_channel_number c
      = if c ≤ 15 then 902075000 + 25000 * c else 2 ^ 64 - 1 := by
  unfold get_freq_by_channel_number UINT64_MAX
  by_cases h : c ≤ 15
  · rw [if_pos h, if_pos h]
    omega
  · rw [if_neg h, if_neg h]
    norm_num

/-- Witness for C13: channel 15, the last valid one. -/
theorem get_freq_by_channel_number_spec_witness :
    (15 : Nat) < 256 ∧
    get_freq_by_channel_number 15
      = if (15 : Nat) ≤ 15 then 902075000 + 25000 * 15 else 2 ^ 64 - 1 :=
  ⟨by decide, get_freq_by_channel_number_spec 15 (by decide)⟩

set_option maxRecDepth 100000 in
/-- C14 (counterexample): for the packet the Begin handler fills on a hit, the
text built by `on_data` is not the text of the stated format: after the twelve
hexadecimal digits of the device id comes a space, not a newline. -/
theorem on_data_text_has_space_before_len :
    on_data stringFormat syncPacket
      = "Device ID:8E89BED60102 Len:31\nData:0101010101010101010101010101010101010101\n" ∧
    specLogText stringFormat syncPacket
      = "Device ID:8E89BED60102\nLen:31\nData:0101010101010101010101010101010101010101\n" ∧
    on_data stringFormat syncPacket ≠ specLogText stringFormat syncPacket := by
  decide

/-- C14 (amended): for every decoded packet, the text built by `on_data` is
"Device ID:" followed by the device id as `to_string_mac_address` gives it for
six bytes without separators, a space, "Len:" followed by the decimal declared
size, a newline, "Data:" followed by `to_string_hex(.., 2)` of each of the first
`dataLen` data bytes without separators, and a final newline; with the helpers
as the spec describes them the device id is 12 characters and each data byte 2. -/
theorem on_data_text (F : StringFormat) (packet : FskPacketData) :
    on_data F packet
      = "Device ID:" ++ F.to_string_mac_address packet.deviceId 6 false ++ " Len:"
        ++ F.to_string_dec_uint packet.size ++ "\n"
        ++ "Data:" ++ dataText F packet.data 0 packet.dataLen ++ "\n" ∧
    (stringFormat.to_string_mac_address packet.deviceId 6 false).length = 12 ∧
    (∀ v, (stringFormat.to_string_hex v 2).length = 2) := by
  refine ⟨?_, ?_, ?_⟩
  · unfold on_data
    dsimp only
    rw [on_data_bytes_eq]
    simp [String.append_assoc]
  · show (to_string_mac_address packet.deviceId 6 false).length = 12
    unfold to_string_mac_address
    simp [hexBytes_length]
  · intro v
    exact to_string_hex_length v 2

/-- C15 (failing input): choosing "Time" in the sort selector passes the value 3
to `handle_entries_sort`, which sorts by name ascending, not by timestamp
descending; choosing "Name" passes 4, for which nothing is sorted. "Hits" and
"dB" do apply the sort they name. -/
theorem sort_selector_time_and_name_mismatch :
    chooseSort "Time" = some (SortKey.nameString, true) ∧
    specSortMode "Time" = some (SortKey.timestamp, false) ∧
    chooseSort "Name" = none ∧
    specSortMode "Name" = some (SortKey.nameString, true) ∧
    chooseSort "Hits" = specSortMode "Hits" ∧
    chooseSort "dB" = specSortMode "dB" ∧
    handle_entries_sort 2 = some (SortKey.timestamp, false) ∧
    handle_entries_sort 3 = some (SortKey.nameString, true) := by
  decide

/-- C16 (failing input): for the raw buffer of 2048 samples whose first sample
is (0, 1) and whose other samples are (0, 0), the peak value tracked by
`execute` is 65536, while the maximum of `I^2 + Q^2` over the samples is 1: the
loop loads four bytes, two samples, per word and squares the two 16-bit halves,
each made of the I and Q bytes of one sample. -/
theorem max_squared_is_not_sample_magnitude :
    rawUnitQ.count = 2048 ∧
    simd32Word rawUnitQ 0 = 256 ∧
    SMUAD (simd32Word rawUnitQ 0) (simd32Word rawUnitQ 0) = 65536 ∧
    maxSquared rawUnitQ = 65536 ∧
    specMaxSquared rawUnitQ = 1 := by
  refine ⟨rfl, by decide, by decide, ?_, rawUnitQ_spec 2047⟩
  have e : maxSquared rawUnitQ = maxSquaredLoop rawUnitQ 1023 1 65536 := by
    show maxSquaredLoop rawUnitQ (1023 + 1) 0 0 = _
    rw [maxSquaredLoop]
    have : SMUAD (simd32Word rawUnitQ 0) (simd32Word rawUnitQ 0) = 65536 := by decide
    rw [this]
    rfl
  rw [e]
  apply maxSquaredLoop_of_le
  intro j hj
  rw [rawUnitQ_word j hj]
  decide

/-- C17: whenever the Header handler does not defer (the symbols consumed before
the header plus 16 is at most 512), it stores two header bytes in `rb_buf[0]`
and `rb_buf[1]`, where bit `j` (0..7) of byte `k` (0..1) is the bit decision for
the symbol at offset `start + 8 * k + j`, least significant bit first, `start`
being the symbols consumed before the header; it sets the write cursor
`packet_index` to 2 and the parse state to Payload. -/
theorem header_bytes_extracted {D : Type} (s : FSKRxProcessor D)
    (hfit : s.symbols_eaten + 16 ≤ 512) :
    (∀ k, k < 2 → (handlePDUHeaderState s).rb_buf k < 256) ∧
    (∀ k j : Nat, k < 2 → j < 8 →
      (handlePDUHeaderState s).rb_buf k / 2 ^ j % 2
        = headerSymbolBit s.dst (s.symbols_eaten + 8 * (k : Int) + (j : Int))) ∧
    (handlePDUHeaderState s).packet_index = 2 ∧
    (handlePDUHeaderState s).parseState = Parse_State.Parse_State_PDU_Payload := by
  have e : ((8 * 2 * SAMPLE_PER_SYMBOL : Nat) : Int) = 16 := rfl
  have e2 : ((dst_buffer_count : Nat) : Int) = 512 := rfl
  have hh : handlePDUHeaderState s =
      { headerByteStep (headerByteStep
          { s with
            symbols_eaten := s.symbols_eaten + 16
            sample_idx := s.symbols_eaten + 16 - 16
            packet_index := 0 }) with
        parseState := Parse_State.Parse_State_PDU_Payload } := by
    unfold handlePDUHeaderState
    dsimp only
    rw [e, e2, if_neg (by omega)]
    rfl
  obtain ⟨a1, a2, a3, a4, a5, a6⟩ := headerByteStep_spec
    { s with
      symbols_eaten := s.symbols_eaten + 16
      sample_idx := s.symbols_eaten + 16 - 16
      packet_index := 0 }
  obtain ⟨b1, b2, b3, b4, b5, b6⟩ := headerByteStep_spec (headerByteStep
    { s with
      symbols_eaten := s.symbols_eaten + 16
      sample_idx := s.symbols_eaten + 16 - 16
      packet_index := 0 })
  have a1' : (headerByteStep
      { s with
        symbols_eaten := s.symbols_eaten + 16
        sample_idx := s.symbols_eaten + 16 - 16
        packet_index := 0 }).packet_index = 1 := a1
  rw [a1'] at b1 b4 b5 b6
  rw [a2, a3] at b6
  have r0 : (handlePDUHeaderState s).rb_buf 0 = (headerByteStep
      { s with
        symbols_eaten := s.symbols_eaten + 16
        sample_idx := s.symbols_eaten + 16 - 16
        packet_index := 0 }).rb_buf 0 := by
    rw [hh]; exact b4 0 (by decide)
  have r1 : (handlePDUHeaderState s).rb_buf 1 = (headerByteStep (headerByteStep
      { s with
        symbols_eaten := s.symbols_eaten + 16
        sample_idx := s.symbols_eaten + 16 - 16
        packet_index := 0 })).rb_buf 1 := by
    rw [hh]
  refine ⟨?_, ?_, ?_, ?_⟩
  · intro k hk
    have hk' : k = 0 ∨ k = 1 := by omega
    rcases hk' with h | h <;> subst h
    · rw [r0]; exact a5
    · rw [r1]; exact b5
  · intro k j hk hj
    have hk' : k = 0 ∨ k = 1 := by omega
    rcases hk' with h | h <;> subst h
    · rw [r0]
      have := a6 j hj
      rw [show (headerByteStep _).rb_buf 0 / 2 ^ j % 2 = _ from this]
      congr 1
      show s.symbols_eaten + 16 - 16 + (j : Int) = _
      push_cast; ring
    · rw [r1, b6 j hj]
      congr 1
      show s.symbols_eaten + 16 - 16 + 8 + (j : Int) = _
      push_cast; ring
  · rw [hh]; exact b1
  · rw [hh]

/-- Witness for C17: the Header handler entered with 496 symbols consumed, the
last position at which the two header bytes still fit. -/
theorem header_bytes_extracted_witness :
    headerAt496.symbols_eaten + 16 ≤ 512 ∧
    (∀ k, k < 2 → (handlePDUHeaderState headerAt496).rb_buf k < 256) ∧
    (∀ k j : Nat, k < 2 → j < 8 →
      (handlePDUHeaderState headerAt496).rb_buf k / 2 ^ j % 2
        = headerSymbolBit headerAt496.dst
            (headerAt496.symbols_eaten + 8 * (k : Int) + (j : Int))) ∧
    (handlePDUHeaderState headerAt496).packet_index = 2 ∧
    (handlePDUHeaderState headerAt496).parseState = Parse_State.Parse_State_PDU_Payload :=
  ⟨by decide, header_bytes_extracted headerAt496 (by decide)⟩

/-- C18: whenever `checkSync` reports a match, the captured value `syncByte`
equals the (32-bit) target pattern, whatever `syncByte` held before; and for
every buffer in which the Begin state reports a hit, `syncByte` is the sync word
0x8E89BED6, the packet recorded has `deviceId` bytes 0x8E, 0x89, 0xBE, 0xD6,
0x01, 0x02, type 0, size 31, `dataLen` 20 with all 20 data bytes 0x01, the guard
`syncByte > 0xFF` holds and the packet is pushed. -/
theorem sync_capture_and_hit_packet {D : Type} (findSync : Nat) (w : Nat → Nat)
    (startIndex syncByte : Nat) (s : FSKRxProcessor D)
    (hf : findSync < 4294967296)
    (hm : (checkSync findSync w startIndex syncByte).1 = false)
    (hhit : (beginSearch s).hit_idx ≠ -1) :
    (checkSync findSync w startIndex syncByte).2 = findSync ∧
    (handleBeginState s).syncByte = 0x8E89BED6 ∧
    (handleBeginState s).fskPacketData.deviceId 0 = 0x8E ∧
    (handleBeginState s).fskPacketData.deviceId 1 = 0x89 ∧
    (handleBeginState s).fskPacketData.deviceId 2 = 0xBE ∧
    (handleBeginState s).fskPacketData.deviceId 3 = 0xD6 ∧
    (handleBeginState s).fskPacketData.deviceId 4 = 0x01 ∧
    (handleBeginState s).fskPacketData.deviceId 5 = 0x02 ∧
    (handleBeginState s).fskPacketData.type = 0 ∧
    (handleBeginState s).fskPacketData.size = 31 ∧
    (handleBeginState s).fskPacketData.dataLen = 20 ∧
    (∀ i, i < 20 → (handleBeginState s).fskPacketData.data i = 0x01) ∧
    (handleBeginState s).syncByte > 0xFF ∧
    (handleBeginState s).application_queue
      = s.application_queue ++ [(handleBeginState s).fskPacketData] := by
  have hsb := beginSearch_hit_syncByte s hhit
  have hq := beginSearch_queue s
  refine ⟨checkSync_syncByte findSync w startIndex syncByte hf hm, ?_⟩
  rw [handleBeginState_hit s hhit]
  unfold beginHit
  dsimp only
  rw [hsb, hq]
  refine ⟨rfl, rfl, rfl, rfl, rfl, rfl, rfl, rfl, rfl, rfl, ?_, by decide, ?_⟩
  · intro i hi
    rw [fillData_spec, if_pos (by omega)]
  · rw [if_pos (by decide)]

set_option maxRecDepth 100000 in
/-- Witness for C18: the window holding the sync word compared from slot 0, and
the processor on the buffer whose symbols 0..31 carry the sync word. -/
theorem sync_capture_and_hit_packet_witness :
    SYNC_BYTE_BLE < 4294967296 ∧
    (checkSync SYNC_BYTE_BLE (fun k => SYNC_BYTE_BLE / 2 ^ k % 2) 0 0xFFFFFFFF).1 = false ∧
    (beginSearch syncAtStart).hit_idx ≠ -1 ∧
    (checkSync SYNC_BYTE_BLE (fun k => SYNC_BYTE_BLE / 2 ^ k % 2) 0 0xFFFFFFFF).2
      = SYNC_BYTE_BLE ∧
    (handleBeginState syncAtStart).syncByte = 0x8E89BED6 ∧
    (handleBeginState syncAtStart).fskPacketData.deviceId 0 = 0x8E ∧
    (handleBeginState syncAtStart).fskPacketData.deviceId 1 = 0x89 ∧
    (handleBeginState syncAtStart).fskPacketData.deviceId 2 = 0xBE ∧
    (handleBeginState syncAtStart).fskPacketData.deviceId 3 = 0xD6 ∧
    (handleBeginState syncAtStart).fskPacketData.deviceId 4 = 0x01 ∧
    (handleBeginState syncAtStart).fskPacketData.deviceId 5 = 0x02 ∧
    (handleBeginState syncAtStart).fskPacketData.type = 0 ∧
    (handleBeginState syncAtStart).fskPacketData.size = 31 ∧
    (handleBeginState syncAtStart).fskPacketData.dataLen = 20 ∧
    (∀ i, i < 20 → (handleBeginState syncAtStart).fskPacketData.data i = 0x01) ∧
    (handleBeginState syncAtStart).syncByte > 0xFF ∧
    (handleBeginState syncAtStart).application_queue
      = syncAtStart.application_queue ++ [(handleBeginState syncAtStart).fskPacketData] :=
  ⟨by decide, by decide, by decide,
    sync_capture_and_hit_packet SYNC_BYTE_BLE (fun k => SYNC_BYTE_BLE / 2 ^ k % 2) 0 0xFFFFFFFF
      syncAtStart (by decide) (by decide) (by decide)⟩

/-- C19: `checkSync` stops at the first mismatching bit, and the capture register
shows it: for every window, start slot and pattern, when `syncByte` is 0 on
entry and the first mismatch is at comparison position `p` (0 ≤ p < 32),
`checkSync` reports no match, `syncByte` on return is the low `p` bits of the
pattern (`pattern mod 2^p`), and no window slot after position `p` has been
compared: any window that agrees on positions 0..p gives the same result. -/
theorem checkSync_stops_at_first_mismatch (findSync : Nat) (w : Nat → Nat)
    (startIndex p : Nat) (hs : startIndex < 32) (hp : p < 32)
    (hmatch : ∀ t, t < p → w ((startIndex + t) % 32) = findSync / 2 ^ t % 2)
    (hmis : w ((startIndex + p) % 32) ≠ findSync / 2 ^ p % 2) :
    (checkSync findSync w startIndex 0).1 = true ∧
    (checkSync findSync w startIndex 0).2 = findSync % 2 ^ p ∧
    (∀ w2 : Nat → Nat,
      (∀ t, t ≤ p → w2 ((startIndex + t) % 32) = w ((startIndex + t) % 32)) →
      checkSync findSync w2 startIndex 0 = checkSync findSync w startIndex 0) := by
  have h := checkSync_first_mismatch findSync w startIndex p hs hp hmatch hmis
  refine ⟨by rw [h], by rw [h], ?_⟩
  intro w2 hw
  rw [h]
  apply checkSync_first_mismatch findSync w2 startIndex p hs hp
  · intro t ht
    rw [hw t (by omega)]; exact hmatch t ht
  · rw [hw p (le_refl _)]; exact hmis

/-- Witness for C19: the window holding the sync word with slot 9 flipped,
compared from slot 0: the first mismatch is at position 9. -/
theorem checkSync_stops_at_first_mismatch_witness :
    (0 : Nat) < 32 ∧ (9 : Nat) < 32 ∧
    (∀ t, t < 9 →
      (fun k => if k = 9 then 1 - SYNC_BYTE_BLE / 2 ^ k % 2 else SYNC_BYTE_BLE / 2 ^ k % 2)
        ((0 + t) % 32) = SYNC_BYTE_BLE / 2 ^ t % 2) ∧
    (fun k => if k = 9 then 1 - SYNC_BYTE_BLE / 2 ^ k % 2 else SYNC_BYTE_BLE / 2 ^ k % 2)
        ((0 + 9) % 32) ≠ SYNC_BYTE_BLE / 2 ^ 9 % 2 ∧
    (checkSync SYNC_BYTE_BLE
      (fun k => if k = 9 then 1 - SYNC_BYTE_BLE / 2 ^ k % 2 else SYNC_BYTE_BLE / 2 ^ k % 2)
      0 0).1 = true ∧
    (checkSync SYNC_BYTE_BLE
      (fun k => if k = 9 then 1 - SYNC_BYTE_BLE / 2 ^ k % 2 else SYNC_BYTE_BLE / 2 ^ k % 2)
      0 0).2 = SYNC_BYTE_BLE % 2 ^ 9 ∧
    (∀ w2 : Nat → Nat,
      (∀ t, t ≤ 9 → w2 ((0 + t) % 32)
        = (fun k => if k = 9 then 1 - SYNC_BYTE_BLE / 2 ^ k % 2 else SYNC_BYTE_BLE / 2 ^ k % 2)
            ((0 + t) % 32)) →
      checkSync SYNC_BYTE_BLE w2 0 0
        = checkSync SYNC_BYTE_BLE
            (fun k => if k = 9 then 1 - SYNC_BYTE_BLE / 2 ^ k % 2 else SYNC_BYTE_BLE / 2 ^ k % 2)
            0 0) :=
  ⟨by decide, by decide, by decide, by decide,
    checkSync_stops_at_first_mismatch SYNC_BYTE_BLE
      (fun k => if k = 9 then 1 - SYNC_BYTE_BLE / 2 ^ k % 2 else SYNC_BYTE_BLE / 2 ^ k % 2)
      0 9 (by decide) (by decide) (by decide) (by decide)⟩

/-- C20: Header and Payload are unreachable. For every decimator, every
sequence of calls (configuration or other messages, `execute` on any buffer)
applied to the processor as constructed, and every number `n` of calls made so
far, the parse state after the first `n` calls is Begin. -/
theorem header_and_payload_unreachable {D : Type} (E : Externals D) (d : D)
    (calls : List Call) (n : Nat) :
    (runCalls E (FSKRxProcessor.initial d) (calls.take n)).parseState
      = Parse_State.Parse_State_Begin :=
  runCalls_keeps_begin E (calls.take n) (FSKRxProcessor.initial d) rfl

/-- C21: for every decimated buffer, the hit index computed by the Begin search
is never below -1; whenever it is not -1 it lies in 0..480 and the bit decisions
of the symbols `hit .. hit + 31` equal bits 0..31 of the sync word in that
order; and when the window spells the sync word once symbol 30 is inserted, the
hit index is -1 and the handler returns as for no hit. -/
theorem hit_index_range {D : Type} (s : FSKRxProcessor D) :
    -1 ≤ (beginSearch s).hit_idx ∧
    ((beginSearch s).hit_idx ≠ -1 →
      0 ≤ (beginSearch s).hit_idx ∧ (beginSearch s).hit_idx ≤ 480 ∧
      ∀ p : Nat, p < 32 →
        symbolBit s.dst ((beginSearch s).hit_idx.toNat + p) = SYNC_BYTE_BLE / 2 ^ p % 2) ∧
    (matchAt s.dst 30 →
      (beginSearch s).hit_idx = -1 ∧ handleBeginState s = (beginSearch s).self) := by
  rcases beginSearch_cases s with ⟨hall, hh⟩ | ⟨i0, h30, h512, hm, hleast, _, hh⟩
  · refine ⟨by omega, fun hne => absurd hh hne, fun hm => absurd hm (hall 30 (by decide))⟩
  · refine ⟨by omega, ?_, ?_⟩
    · intro hne
      rw [hh] at hne ⊢
      have h31 : 31 ≤ i0 := by omega
      refine ⟨by omega, by omega, ?_⟩
      intro p hp
      have := hm p hp
      unfold streamBit at this
      rw [if_pos (by omega)] at this
      have e : ((i0 : Int) - 31).toNat + p = ((i0 : Int) - 31 + (p : Int)).toNat := by omega
      rw [e, this]
    · intro hm30
      have e : i0 = 30 := by
        by_contra hne
        exact hleast 30 (by omega) hm30
      subst e
      have hh' : (beginSearch s).hit_idx = -1 := by omega
      exact ⟨hh', handleBeginState_miss s hh'⟩

set_option maxRecDepth 100000 in
/-- Witness for C21: the buffer whose symbols 0..31 carry the sync word (hit
index 0) and the buffer whose symbols 0..30 carry its bits 1..31 (window match
at symbol 30). -/
theorem hit_index_range_witness :
    (beginSearch syncAtStart).hit_idx ≠ -1 ∧
    matchAt syncCutShort.dst 30 ∧
    (-1 ≤ (beginSearch syncAtStart).hit_idx ∧
      ((beginSearch syncAtStart).hit_idx ≠ -1 →
        0 ≤ (beginSearch syncAtStart).hit_idx ∧ (beginSearch syncAtStart).hit_idx ≤ 480 ∧
        ∀ p : Nat, p < 32 →
          symbolBit syncAtStart.dst ((beginSearch syncAtStart).hit_idx.toNat + p)
            = SYNC_BYTE_BLE / 2 ^ p % 2) ∧
      (matchAt syncAtStart.dst 30 →
        (beginSearch syncAtStart).hit_idx = -1 ∧
        handleBeginState syncAtStart = (beginSearch syncAtStart).self)) ∧
    (matchAt syncCutShort.dst 30 →
      (beginSearch syncCutShort).hit_idx = -1 ∧
      handleBeginState syncCutShort = (beginSearch syncCutShort).self) :=
  ⟨by decide, by decide, hit_index_range syncAtStart, (hit_index_range syncCutShort).2.2⟩

/-- C22: for all 16-bit signed sample components `I0, Q0, I1, Q1`, the two
products and the cross product `I0 * Q1 - I1 * Q0` lie strictly within the
32-bit signed range, so the expression evaluated in 32-bit `int` arithmetic is
the integer cross product and the bit decision computed by the code equals the
one computed over the unbounded integers. -/
theorem cross_product_fits_int32 (I0 Q0 I1 Q1 : Int) (h0 : isInt16 I0) (h1 : isInt16 Q0)
    (h2 : isInt16 I1) (h3 : isInt16 Q1) :
    -2147483648 < I0 * Q1 - I1 * Q0 ∧ I0 * Q1 - I1 * Q0 < 2147483648 ∧
    wrapInt32 (I0 * Q1) = I0 * Q1 ∧ wrapInt32 (I1 * Q0) = I1 * Q0 ∧
    wrapInt32 (wrapInt32 (I0 * Q1) - wrapInt32 (I1 * Q0)) = I0 * Q1 - I1 * Q0 ∧
    beginBitDecision I0 Q0 I1 Q1 = (if I0 * Q1 - I1 * Q0 > 0 then 1 else 0) ∧
    headerBitDecision I0 Q0 I1 Q1 = (if I0 * Q1 - I1 * Q0 > 0 then 1 else 0) ∧
    payloadBitDecision I0 Q0 I1 Q1 = (if I0 * Q1 - I1 * Q0 > 0 then 1 else 0) := by
  have m1 := int16_mul_bounds I0 Q1 h0 h3
  have m2 := int16_mul_bounds I1 Q0 h2 h1
  have c := int16_cross_bounds I0 Q0 I1 Q1 h0 h1 h2 h3
  have e := wrapped_cross_eq I0 Q0 I1 Q1 h0 h1 h2 h3
  refine ⟨c.1, c.2, wrapInt32_of_range _ (by omega) (by omega),
    wrapInt32_of_range _ (by omega) (by omega), e, ?_, ?_, ?_⟩
  · unfold beginBitDecision; rw [e]
  · unfold headerBitDecision; rw [e]
  · unfold payloadBitDecision; rw [e]

/-- Witness for C22: the pair (-32768, 32767), (-32768, -32768), whose cross
product 2147450880 is the largest possible. -/
theorem cross_product_fits_int32_witness :
    isInt16 (-32768) ∧ isInt16 32767 ∧
    ((-2147483648 : Int) < (-32768) * (-32768) - (-32768) * 32767 ∧
      ((-32768) * (-32768) - (-32768) * 32767 : Int) < 2147483648 ∧
      wrapInt32 ((-32768) * (-32768)) = (-32768) * (-32768) ∧
      wrapInt32 ((-32768) * 32767) = (-32768) * 32767 ∧
      wrapInt32 (wrapInt32 ((-32768) * (-32768)) - wrapInt32 ((-32768) * 32767))
        = (-32768) * (-32768) - (-32768) * 32767 ∧
      beginBitDecision (-32768) 32767 (-32768) (-32768)
        = (if ((-32768) * (-32768) - (-32768) * 32767 : Int) > 0 then 1 else 0) ∧
      headerBitDecision (-32768) 32767 (-32768) (-32768)
        = (if ((-32768) * (-32768) - (-32768) * 32767 : Int) > 0 then 1 else 0) ∧
      payloadBitDecision (-32768) 32767 (-32768) (-32768)
        = (if ((-32768) * (-32768) - (-32768) * 32767 : Int) > 0 then 1 else 0)) :=
  ⟨by unfold isInt16; decide, by unfold isInt16; decide,
    cross_product_fits_int32 (-32768) 32767 (-32768) (-32768)
      (by unfold isInt16; decide) (by unfold isInt16; decide)
      (by unfold isInt16; decide) (by unfold isInt16; decide)⟩

/-- C23: no operation of the processor modifies the declared payload length
`payload_len` or the declared PDU type `pdu_type`: `execute`, `configure` (and
`on_message`), and the Begin, Header and Payload handlers return with both as
they were, the Header handler included, which derives nothing from the two
header bytes it extracts; so in every state reached from the processor as
constructed, by any sequence of calls, both are 0. -/
theorem declared_length_and_type_never_change {D : Type} (E : Externals D)
    (s : FSKRxProcessor D) (buffer : buffer_c8_t) (deviation : Nat) (m : Message) (d : D)
    (calls : List Call) :
    ((execute E s buffer).payload_len = s.payload_len ∧
      (execute E s buffer).pdu_type = s.pdu_type) ∧
    ((configure E s deviation).payload_len = s.payload_len ∧
      (configure E s deviation).pdu_type = s.pdu_type) ∧
    ((on_message E s m).payload_len = s.payload_len ∧
      (on_message E s m).pdu_type = s.pdu_type) ∧
    ((handleBeginState s).payload_len = s.payload_len ∧
      (handleBeginState s).pdu_type = s.pdu_type) ∧
    ((handlePDUHeaderState s).payload_len = s.payload_len ∧
      (handlePDUHeaderState s).pdu_type = s.pdu_type) ∧
    ((handlePDUPayloadState s).payload_len = s.payload_len ∧
      (handlePDUPayloadState s).pdu_type = s.pdu_type) ∧
    (runCalls E (FSKRxProcessor.initial d) calls).payload_len = 0 ∧
    (runCalls E (FSKRxProcessor.initial d) calls).pdu_type = 0 := by
  refine ⟨execute_lengths E s buffer, ⟨rfl, rfl⟩, applyCall_lengths E s (Call.message m),
    handleBeginState_lengths s, handlePDUHeaderState_lengths s,
    handlePDUPayloadState_lengths s, ?_, ?_⟩
  · exact (runCalls_lengths E calls (FSKRxProcessor.initial d)).1
  · exact (runCalls_lengths E calls (FSKRxProcessor.initial d)).2

/-- C24: for every channel index the auto-channel timer can select (37, 38 and
39), `get_freq_by_channel_number` returns the sentinel `UINT64_MAX`; so on every
tick of the timer with the auto-channel mode on, whatever `std::rand()` returns,
the channel chosen is one of 37, 38, 39 and the value handed to
`field_frequency.set_value` is the sentinel. -/
theorem auto_channel_frequency_is_sentinel (v : FskRxView) (rand c : Nat)
    (hc1 : 37 ≤ c) (hc2 : c ≤ 39) (hauto : v.auto_channel = true)
    (htick : wrapInt16 (v.timer_count + 1) = v.timer_period) :
    get_freq_by_channel_number c = UINT64_MAX ∧
    UINT64_MAX = 2 ^ 64 - 1 ∧
    (on_timer v rand).frequency_value = some UINT64_MAX ∧
    (on_timer v rand).fsk_channel = some (37 + (rand : Int) % 3) ∧
    (37 : Int) ≤ 37 + (rand : Int) % 3 ∧ 37 + (rand : Int) % 3 ≤ 39 ∧
    (on_timer v rand).timer_count = 0 := by
  have hg : ∀ k : Nat, 16 ≤ k → get_freq_by_channel_number k = UINT64_MAX := by
    intro k hk
    unfold get_freq_by_channel_number
    rw [if_neg (by omega)]
  have hr : 16 ≤ ((37 + (rand : Int) % (39 - 37 + 1)) % 256).toNat := by omega
  refine ⟨hg c (by omega), by unfold UINT64_MAX; norm_num, ?_, ?_, by omega, by omega, ?_⟩
  · unfold on_timer
    dsimp only
    rw [if_pos htick, if_pos hauto, hg _ hr]
  · unfold on_timer
    dsimp only
    rw [if_pos htick, if_pos hauto]
    rfl
  · unfold on_timer
    dsimp only
    rw [if_pos htick, if_pos hauto]

/-- Witness for C24: channel 38, and the view one timer call before its tick
with `std::rand()` returning 7. -/
theorem auto_channel_frequency_is_sentinel_witness :
    (37 : Nat) ≤ 38 ∧ (38 : Nat) ≤ 39 ∧ autoView.auto_channel = true ∧
    wrapInt16 (autoView.timer_count + 1) = autoView.timer_period ∧
    get_freq_by_channel_number 38 = UINT64_MAX ∧
    UINT64_MAX = 2 ^ 64 - 1 ∧
    (on_timer autoView 7).frequency_value = some UINT64_MAX ∧
    (on_timer autoView 7).fsk_channel = some (37 + ((7 : Nat) : Int) % 3) ∧
    (37 : Int) ≤ 37 + ((7 : Nat) : Int) % 3 ∧ 37 + ((7 : Nat) : Int) % 3 ≤ 39 ∧
    (on_timer autoView 7).timer_count = 0 :=
  ⟨by decide, by decide, by decide, by decide,
    auto_channel_frequency_is_sentinel autoView 7 38 (by decide) (by decide) (by decide)
      (by decide)⟩

/-- C25: whenever the Payload handler completes with declared payload length
`L < 6`, the bound `L - 6` of the copy loop is a negative signed integer, the
loop runs zero times: the pushed packet has `dataLen` 0 and its data bytes are
the ones the record held before (none is written). -/
theorem short_payload_copies_nothing {D : Type} (s : FSKRxProcessor D)
    (hshort : s.payload_len < 6)
    (hfit : s.symbols_eaten + 8 * ((s.payload_len : Int) + 3) ≤ 512) :
    (s.payload_len : Int) - 6 < 0 ∧
    ((s.payload_len : Int) - 6).toNat = 0 ∧
    (handlePDUPayloadState s).fskPacketData.dataLen = 0 ∧
    (handlePDUPayloadState s).fskPacketData.data = s.fskPacketData.data ∧
    (handlePDUPayloadState s).application_queue
      = s.application_queue ++ [(handlePDUPayloadState s).fskPacketData] ∧
    (handlePDUPayloadState s).parseState = Parse_State.Parse_State_Begin := by
  have e : ((8 * (s.payload_len + 3) * SAMPLE_PER_SYMBOL : Nat) : Int)
      = 8 * ((s.payload_len : Int) + 3) := by
    unfold SAMPLE_PER_SYMBOL; push_cast; ring
  have e2 : ((dst_buffer_count : Nat) : Int) = 512 := rfl
  obtain ⟨f1, f2, f3, f4, f5, _, _⟩ := payloadBytes_fields (s.payload_len + 3)
    { s with symbols_eaten := s.symbols_eaten + 8 * ((s.payload_len : Int) + 3) }
  have en : ((s.payload_len : Int) - 6).toNat = 0 := by omega
  refine ⟨by omega, en, ?_⟩
  unfold handlePDUPayloadState
  dsimp only
  rw [e, e2, if_neg (by omega)]
  dsimp only
  rw [f1, f2, f3, f4, f5, en]
  exact ⟨rfl, rfl, rfl, rfl⟩

/-- Witness for C25: the Payload handler on a processor with declared length 3,
entered with 0 symbols consumed. -/
theorem short_payload_copies_nothing_witness :
    payload3.payload_len < 6 ∧
    payload3.symbols_eaten + 8 * ((payload3.payload_len : Int) + 3) ≤ 512 ∧
    (payload3.payload_len : Int) - 6 < 0 ∧
    ((payload3.payload_len : Int) - 6).toNat = 0 ∧
    (handlePDUPayloadState payload3).fskPacketData.dataLen = 0 ∧
    (handlePDUPayloadState payload3).fskPacketData.data = payload3.fskPacketData.data ∧
    (handlePDUPayloadState payload3).application_queue
      = payload3.application_queue ++ [(handlePDUPayloadState payload3).fskPacketData] ∧
    (handlePDUPayloadState payload3).parseState = Parse_State.Parse_State_Begin :=
  ⟨by decide, by decide, short_payload_copies_nothing payload3 (by decide) (by decide)⟩

end FSKRx
